import Mathlib

/-!
Verification development for the rule-based conversational responder in
`main.py` (class `SmartSpaceAgentChatbot`).  The matching core — keyword
index, fuzzy scorer and dialogue-state tracker — is shallowly embedded as
executable Lean functions operating on explicit session state.

Modelling conventions:
* Python strings are Lean `String`s; per-character operations work on
  `String.data`.  Python's `str.lower`/`upper`/`capitalize` are modelled by
  the corresponding ASCII `Char` operations (catalog text and all vocabulary
  are ASCII; non-ASCII characters pass through unchanged on both sides).
* `re`'s `\w` is modelled as ASCII alphanumeric or underscore, `\s` as ASCII
  whitespace.  The fixed word-boundary vocabulary patterns of the source are
  modelled by an explicit boundary-checking scan.
* `datetime.now()` is modelled by an explicit `now : Nat` argument; it is
  stored in history timestamps (its only observable use — the formatted
  time appears solely in the status text, a dead store, see below).
* Python list indexing (`self.dataset[i]`), which raises on a bad index, is
  modelled with `List.get?`, so the response entrypoint returns an `Option`
  that is `none` exactly where the source would raise.
-/

namespace Chatbot

/-! ### Character and string primitives (modelling Python's) -/

/-- `re`'s `\w` character class (ASCII fragment): letters, digits, underscore. -/
def isWordChar (c : Char) : Bool := c.isAlphanum || c == '_'

/-- `re`'s `\s` character class (ASCII fragment). -/
def isSpacePy (c : Char) : Bool :=
  [' ', '\t', '\n', '\r', '\x0B', '\x0C'].contains c

/-- Python `str.lower` (ASCII). -/
def pyLower (s : String) : String := ⟨s.data.map Char.toLower⟩

/-- Python `str.upper` (ASCII). -/
def pyUpper (s : String) : String := ⟨s.data.map Char.toUpper⟩

/-- Python's substring test `needle in hay`. -/
def pyIn (needle hay : String) : Bool := decide (needle.data <:+: hay.data)

theorem length_dropWhile_le (p : α → Bool) (l : List α) :
    (l.dropWhile p).length ≤ l.length := by
  induction l with
  | nil => simp
  | cons c cs ih =>
    rw [List.dropWhile_cons]
    split
    · exact Nat.le_succ_of_le ih
    · exact Nat.le_refl _

/-- Fuel-indexed scan for the maximal word-character runs; structural in the
fuel so that it reduces definitionally.  `wordRuns` supplies fuel equal to the
list length, which is always sufficient (see `wordRunsF_congr`). -/
def wordRunsF : Nat → List Char → List (List Char)
  | 0, _ => []
  | _ + 1, [] => []
  | fuel + 1, c :: cs =>
    if isWordChar c then
      ((c :: cs).takeWhile isWordChar) :: wordRunsF fuel ((c :: cs).dropWhile isWordChar)
    else
      wordRunsF fuel cs

/-- The maximal word-character runs of a character list, in order: the
matches of `re.findall(r"\b\w+\b", s)`. -/
def wordRuns (s : List Char) : List (List Char) := wordRunsF s.length s

/-- `re.findall(r"\b\w+\b", s)`: the word tokens of `s`. -/
def tokenize (s : String) : List String := (wordRuns s.data).map (fun l => ⟨l⟩)

/-- After a candidate occurrence, `\b` holds iff the input ended or the next
character is not a word character (all patterns used end in a word char). -/
def boundaryAfter : List Char → Bool
  | [] => true
  | c :: _ => !isWordChar c

/-- Scan for an occurrence of `pat` preceded and followed by a word boundary.
`prevB` records whether the previous character was absent or a non-word
character (all patterns used start with a word char). -/
def boundedOccAux (pat : List Char) : Bool → List Char → Bool
  | prevB, [] => prevB && pat.isEmpty
  | prevB, c :: cs =>
    (prevB && pat.isPrefixOf (c :: cs) && boundaryAfter ((c :: cs).drop pat.length)) ||
    boundedOccAux pat (!isWordChar c) cs

/-- `re.search(r"\b(w1|w2|...)\b", s)` for a fixed vocabulary. -/
def reSearchVocab (pats : List String) (s : String) : Bool :=
  pats.any fun p => boundedOccAux p.data true s.data

/-! ### Data model -/

/-- One catalog record, the five fields of the source's dataset dicts. -/
structure Entry where
  keywords : List String
  response : String
  severity : String
  category : String
  questions : List String
deriving DecidableEq

/-- One conversation-history record (role, text, timestamp). -/
structure HistEntry where
  role : String
  message : String
  timestamp : Nat
deriving DecidableEq

/-- The chatbot state: the session fields of `SmartSpaceAgentChatbot`
together with the catalog and its derived keyword index.  (`agent_name`,
`mission_status` and `stress_level` are constants/unused; see below.) -/
structure Bot where
  user_name : Option String
  last_topic : Option String
  awaiting_clarification : Bool
  clarification_options : List Entry
  conversation_history : List HistEntry
  dataset : List Entry
  keyword_index : List (String × List Nat)
deriving DecidableEq

def agent_name : String := "NOVA"

def mission_status : String := "ACTIVE"

/-! ### The default catalog (`load_default_dataset`) -/

/-- The default catalog, transcribed verbatim from the literal returned by
`load_default_dataset` in the source. -/
def default_dataset : List Entry := [
  { keywords := ["oxygen", "o2", "air", "breathing", "suffocate", "breath", "atmosphere", "venting", "leak", "pressure"],
    response := "🚨 OXYGEN EMERGENCY PROTOCOL - CRITICAL\n\n⚠️ IMMEDIATE ACTIONS (Next 60 seconds):\n1. Don EMV suit or EVA suit IMMEDIATELY\n2. Activate personal O2 supply - verify gauge >500 PSI\n3. Alert all crew - sound general alarm\n4. Move to safe module through sealed hatch\n\n🔧 IF OXYGEN LEAK:\n• Close isolation valves to affected area\n• Activate emergency O2 reserves\n• Use handheld detector to find breach\n• Patch with emergency sealant kit\n\n🔧 IF LOW OXYGEN (No leak):\n• Check life support systems\n• Replace CO2 scrubber canisters\n• Verify oxygen generator functioning\n• Switch to backup O2 supply\n\n📊 CRITICAL LEVELS:\n• Normal: 21% O2\n• Safe minimum: 19.5% O2\n• Dangerous: <19% O2\n• Time to unconsciousness at 10%: 30-60 seconds\n\nSurvival with reserves: 24-48 hours\n\nWhat\x27s your current O2 reading? Any visible damage?",
    severity := "CRITICAL",
    category := "life_support",
    questions := ["What is your current oxygen level reading?", "Can you see any visible leaks or damage?", "How many crew members are affected?"] },
  { keywords := ["fire", "flame", "smoke", "burning", "burn", "combustion", "blaze", "ignite", "spark"],
    response := "🚨 FIRE EMERGENCY PROTOCOL - CRITICAL\n\n⚠️ IMMEDIATE ACTIONS (Next 30 seconds):\n1. Sound fire alarm - evacuate area NOW\n2. Don breathing apparatus\n3. Close ALL ventilation (starves fire)\n4. Activate CO2 suppression in affected zone\n\n🧯 FIRE SUPPRESSION:\n• Use CO2 extinguishers ONLY (never water!)\n• Cut electrical power to area\n• Seal compartment with bulkhead doors\n• Monitor adjacent areas for spread\n\n⚠️ WARNING:\n• Fire doubles every 30 seconds in oxygen\n• Toxic smoke spreads in 60 seconds\n• DO NOT fight if flames >1 meter\n\n📊 POST-SUPPRESSION:\n• Keep sealed 30+ minutes\n• Check for reignition with thermal camera\n• Verify no electrical shorts\n• Assess structural damage\n\n🔍 Common causes: Electrical shorts (45%), batteries (30%), equipment (25%)\n\nWhat started the fire? How large is it? Electrical/Chemical/Other?",
    severity := "CRITICAL",
    category := "fire",
    questions := ["What was the source of the fire?", "How large are the flames?", "Is it electrical, chemical, or other?"] },
  { keywords := ["hull", "breach", "hole", "puncture", "depressurization", "decompression", "pressure", "vacuum", "crack", "rupture", "meteor", "micrometeorite"],
    response := "🚨 HULL BREACH / DEPRESSURIZATION - CRITICAL\n\n⚠️ IMMEDIATE (15 seconds - before consciousness loss):\n1. SUITS ON NOW!\n2. Activate suit pressure - check seal\n3. Secure yourself (prevent ejection)\n4. Hit emergency beacon\n\n🔍 LOCATE BREACH (Next 60 seconds):\n• Listen for whistling/rushing air\n• Use pressure detector\n• Feel for airflow with glove\n• Deploy foam sealant (<5cm holes)\n• Use hull patch kit (>5cm)\n\n📊 TIME CRITICAL:\n• 1cm hole: 3 minutes to danger\n• 5cm hole: 45 seconds to danger\n• >10cm: EVACUATE IMMEDIATELY (10 seconds)\n\n🛡️ TEMPORARY FIXES:\n• Duct tape + plastic sheet: 5-10 min\n• Stuff with fabric/foam\n• Use airlock as refuge\n\n⚡ SUIT OXYGEN:\n• EVA Suit: 6-8 hours (rest), 2-4 hours (active)\n• Emergency Vest: 30-45 minutes ONLY\n\nBreach size? Current pressure reading?",
    severity := "CRITICAL",
    category := "structural",
    questions := ["How large is the breach?", "What\x27s your current pressure reading?", "Are you in a suit?"] },
  { keywords := ["radiation", "solar", "flare", "cosmic", "rays", "dosimeter", "exposure", "radioactive"],
    response := "🚨 RADIATION EXPOSURE PROTOCOL\n\n⚠️ IMMEDIATE (2 minutes):\n1. Move to radiation shelter (storm shelter) NOW\n2. Close all window shutters\n3. Activate magnetic shielding\n4. Check dosimeter reading\n5. Don radiation vest\n\n📊 DOSIMETER LEVELS:\n• <50 mSv: Safe (normal background)\n• 50-100 mSv: Elevated - monitor\n• 100-500 mSv: Moderate - shelter\n• 500-1000 mSv: High - emergency\n• >1000 mSv: SEVERE - immediate medical\n\n☢️ SHIELDING:\n• Position water tanks between you and source\n• Use food/equipment as mass shielding\n• Deploy polyethylene barriers\n• Stay in spacecraft center\n\n🌞 SOLAR FLARE:\n• Warning time: 8-15 minutes\n• Peak radiation: 2-6 hours after\n• Safe to exit: 24-48 hours later\n\n⚕️ SYMPTOMS TO WATCH:\n• Nausea/vomiting (early sign)\n• Take anti-radiation meds from kit\n• Monitor every 30 minutes\n\nCurrent dosimeter reading? Any symptoms?",
    severity := "HIGH",
    category := "radiation",
    questions := ["What\x27s your dosimeter reading?", "Are you experiencing any symptoms?", "Are you in the radiation shelter?"] },
  { keywords := ["communication", "comms", "radio", "signal", "antenna", "contact", "transmission", "connection", "reach", "lost"],
    response := "📡 COMMUNICATION LOSS PROTOCOL\n\n🔧 IMMEDIATE CHECKS (5 minutes):\n1. Check main comm array status panel\n2. Verify power (should be 28V DC)\n3. Switch to backup array (toggle Alpha-3)\n4. Test emergency beacon (121.5 MHz)\n5. Try laser comm link\n\n🛰️ ANTENNA TROUBLESHOOTING:\n• Use star tracker for spacecraft orientation\n• Point high-gain antenna toward Earth\n• Use signal strength meter to fine-tune\n\n📡 FREQUENCIES TO TRY:\n• Primary: 2.2 GHz (S-band)\n• Backup: 8.4 GHz (X-band)\n• Emergency: 121.5 MHz (distress)\n\n🔌 POWER CYCLE PROCEDURE:\n1. Turn OFF main comms (30 sec)\n2. Check/reset circuit breakers\n3. Turn ON backup comms first\n4. Wait 60 sec for boot\n5. Turn ON main comms\n\n📊 SIGNAL STRENGTH:\n• Excellent: >-80 dBm\n• Good: -80 to -100 dBm\n• Weak: -100 to -120 dBm\n• No signal: <-120 dBm\n\n📝 BACKUP METHODS:\n• Text-only mode (90% less bandwidth)\n• Record messages for batch send\n• Morse code on emergency frequency\n\nWhat happened when comms failed? Unusual sounds/smells?",
    severity := "HIGH",
    category := "communication",
    questions := ["When did you lose contact?", "Any unusual events before loss?", "Is the power indicator on?"] },
  { keywords := ["power", "electrical", "electricity", "battery", "solar", "panels", "energy", "blackout", "shutdown", "voltage"],
    response := "⚡ POWER SYSTEM FAILURE PROTOCOL\n\n🔋 IMMEDIATE ACTIONS:\n1. Switch to battery backup (auto)\n2. Reduce non-essential power NOW:\n   ❌ Disable: Entertainment, non-critical lights, experiments\n   ✅ Keep: Life support, navigation, comms, thermal\n\n📊 EMERGENCY POWER BUDGET:\n• Life support: 1.2 kW (CRITICAL)\n• Thermal control: 0.8 kW (CRITICAL)\n• Comms: 0.3 kW (CRITICAL)\n• Navigation: 0.2 kW (CRITICAL)\nTOTAL: 2.6 kW minimum\n\n🔍 DIAGNOSIS:\n\nSOLAR PANELS:\n• Check deployment (180° extended?)\n• Inspect for damage via cameras\n• Verify sun tracking (within 2°)\n• Clean if dust/debris present\n• Expected: 4-14 kW based on sun distance\n\nBATTERY:\n• Check charge level (maintain >40%)\n• Safe range: 20-80%\n• If hot (>60°C): Disconnect immediately\n• Lifetime: ~50,000 cycles\n\n🛠️ TROUBLESHOOTING:\n1. Reset power management computer\n2. Check main bus voltage (28V ±4V)\n3. Inspect circuit breakers\n4. Test each source independently\n\n⏰ BATTERY DURATION:\n• Full ops: 2-4 hours\n• Emergency mode: 12-24 hours\n• Survival only: 48-72 hours\n\nCurrent battery %? Solar panel status?",
    severity := "HIGH",
    category := "power",
    questions := ["What\x27s your battery level?", "Are solar panels deployed?", "Which systems failed first?"] },
  { keywords := ["life support", "co2", "carbon dioxide", "scrubber", "eclss", "temperature", "humidity", "hot", "cold", "condensation"],
    response := "🌬️ LIFE SUPPORT SYSTEM FAILURE\n\n⚠️ CHECK READINGS NOW:\n• O2: 19.5-23% (CRITICAL if <19%)\n• CO2: <0.5% (DANGEROUS if >1%)\n• Pressure: 14.7 PSI\n• Temp: 18-24°C\n• Humidity: 30-70%\n\n🔧 CO2 SCRUBBER FIX:\n\nLithium Hydroxide (LiOH):\n1. Replace canister (in ECLSS bay)\n2. Each lasts 2-person-days\n3. Listen for airflow (slight hiss)\n4. Check weight (+20% = saturated)\n\nMolecular Sieve:\n1. Check temp cycling (0-200°C)\n2. Verify vacuum pump running\n3. Listen for valve cycle (every 5 min)\n4. Reset if frozen\n\n🚨 EMERGENCY CO2 REMOVAL:\n• Use backup canisters immediately\n• Adapt EVA suit scrubbers (2-hour capacity)\n• Use sodium hydroxide if LiOH gone\n• Reduce activity (40% less CO2)\n\n💨 OXYGEN GENERATION:\n• Need 2L water/person/day\n• Check voltage 2.0-2.4V\n• Inspect hydrogen vent\n• Clean electrode buildup\n\n🌡️ TEMPERATURE:\n• Check coolant pump circulation\n• Verify radiator deployment\n• Look for coolant leaks (UV light)\n• Rising >2°C/hour = failure\n\n⏰ SURVIVAL TIME:\n• CO2 critical: 6-12 hours\n• O2 depleted: 24-48 hours\n• Temperature: 12-24 hours\n\nWhat readings are abnormal? Which component?",
    severity := "CRITICAL",
    category := "life_support",
    questions := ["What are your current atmospheric readings?", "Which component seems to have failed?", "How long has it been malfunctioning?"] },
  { keywords := ["medical", "injured", "hurt", "sick", "pain", "bleeding", "blood", "unconscious", "broken", "fracture", "burn", "wound", "emergency"],
    response := "🏥 MEDICAL EMERGENCY PROTOCOL\n\n⚕️ IMMEDIATE ASSESSMENT:\n1. Conscious? Alert? Responsive?\n2. Breathing? Rate 12-20/min normal?\n3. Pulse? 60-100/min normal?\n4. Bleeding? Apply pressure\n5. Move to medical bay if safe\n\n🚑 SPECIFIC EMERGENCIES:\n\nUNCONSCIOUS:\n• Clear airway\n• Recovery position (if no spinal injury)\n• Monitor vitals every 5 min\n• Prepare CPR\n\nSEVERE BLEEDING:\n• Direct pressure with sterile gauze\n• Elevate above heart\n• Tourniquet 5cm above wound (severe only)\n• Use suction (microgravity)\n\nFRACTURES:\n• Immobilize with splint\n• Ice pack (cold pack from kit)\n• Pain relief: Ibuprofen\n• Secure patient in microgravity\n\nBURNS:\n• Cool with water 10-20 min\n• Sterile non-stick dressing\n• DO NOT pop blisters\n• Severe: evacuation needed\n\n💊 MEDICAL KIT:\n• Pain: Ibuprofen, acetaminophen\n• Antibiotics: Amoxicillin\n• Cardiac: Aspirin, epinephrine\n• Suture kit, scalpel\n• IV fluids & administration set\n\n📡 TELEMEDICINE:\n1. Activate medical downlink\n2. Transmit vitals continuously\n3. Video with flight surgeon\n4. Follow guidance precisely\n\n⏰ EVACUATION IF:\n• Cardiac arrest\n• Severe trauma\n• Uncontrolled bleeding\n• Unconscious >30 min\n• Surgical needs\n\nWhat are the symptoms? Patient conscious? Visible injuries?",
    severity := "HIGH",
    category := "medical",
    questions := ["What are the patient\x27s symptoms?", "Is the patient conscious?", "Are there any visible injuries?"] },
  { keywords := ["navigation", "lost", "position", "location", "course", "trajectory", "guidance", "gps", "direction", "heading"],
    response := "🧭 NAVIGATION SYSTEM FAILURE\n\n📍 POSITION CHECK NOW:\n1. Check IMU (inertial measurement)\n2. Verify star tracker (needs 3+ stars)\n3. Query GPS (Earth orbit - 4+ satellites)\n4. Calculate from last known position\n\n🛰️ BACKUP NAVIGATION:\n\nSTAR TRACKER:\n1. Identify 3 bright stars:\n   • Polaris (North Star) - mag 2.0\n   • Sirius (brightest) - mag -1.5\n   • Canopus (2nd brightest) - mag -0.7\n2. Use star catalog for triangulation\n3. Input angles to nav computer\nAccuracy: ±0.1°\n\nCELESTIAL NAVIGATION:\n1. Use sextant from emergency kit\n2. Measure Earth/Moon/Sun angles\n3. Cross-ref ephemeris tables\n4. Calculate with spherical trig\nAccuracy: ±10-50 km\n\nGROUND TRACKING:\n• Request position from mission control\n• Ground radar: ±1 km accuracy\n• Signal delay reveals distance\n\n🔧 SYSTEM RESET:\nIMU: Power cycle (90 sec), calibrate gyros (5 min)\nStar Tracker: Manual ID mode, clean sensor\nGPS: Point toward Earth, cold start 10-15 min\n\n🗺️ TRAJECTORY CORRECTION:\n1. Calculate position error\n2. Determine delta-V needed\n3. Plan RCS burn timing\n4. Execute & verify\n\n📊 FUEL COSTS:\n• Minor (10 m/s): 2-5 kg\n• Moderate (50 m/s): 10-25 kg\n• Major (100+ m/s): May be impossible\n\nPosition estimate? Mission phase? Fuel remaining?",
    severity := "HIGH",
    category := "navigation",
    questions := ["What\x27s your current position estimate?", "What mission phase are you in?", "How much fuel do you have remaining?"] },
  { keywords := ["mars", "red planet", "planet"],
    response := "🔴 MARS - THE RED PLANET\n\n📊 VITAL STATS:\n• Distance: 228M km (1.52 AU from Sun)\n• Day: 24.6 hours (like Earth!)\n• Year: 687 Earth days\n• Gravity: 38% of Earth\n• Atmosphere: 95% CO2\n• Pressure: 0.6% of Earth\n• Temp: -60°C avg (-140 to +20°C)\n\n🌡️ SURVIVAL CHALLENGES:\n• Thin atmosphere - suit required always\n• No magnetic field - radiation exposure\n• Dust storms last months\n• Extreme cold\n• Water only as ice\n\n🚀 HUMAN MISSIONS:\n• Travel time: 6-9 months\n• Launch window: Every 26 months\n• Mission duration: 2-3 years total\n• Typical crew: 4-6 astronauts\n\n🔬 COOL FACTS:\n• Olympus Mons: Largest volcano (24km tall!)\n• Valles Marineris: 4,000km canyon\n• Ancient riverbeds prove past water\n• Possible microbial life in subsurface ice\n\nWant to know about Mars missions or other planets?",
    severity := "INFO",
    category := "astronomy",
    questions := [] },
  { keywords := ["stress", "anxious", "anxiety", "worried", "scared", "afraid", "lonely", "depressed", "isolated", "panic", "mental", "psychological"],
    response := "🧠 PSYCHOLOGICAL SUPPORT\n\nAgent, I recognize you\x27re under stress. This is completely normal in space missions. You\x27re not alone - these feelings don\x27t mean weakness.\n\n🌟 IMMEDIATE TECHNIQUES:\n\n1. BREATHING (2 min):\n   • Inhale 4 counts\n   • Hold 4 counts\n   • Exhale 6 counts\n   • Repeat 5 times\n\n2. GROUNDING (5-4-3-2-1):\n   • 5 things you SEE\n   • 4 things you TOUCH\n   • 3 things you HEAR\n   • 2 things you SMELL\n   • 1 thing you TASTE\n\n3. MUSCLE RELAXATION:\n   • Tense each muscle 5 sec\n   • Release and feel relaxation\n   • Toes to head\n\n💪 SPACE-SPECIFIC COPING:\n• Schedule Earth video calls\n• Join crew for meals\n• Keep mission journal\n• Exercise daily (mood booster)\n• Earth viewing (15 min calms mind)\n• Listen to favorite music\n\n🏥 REQUEST HELP IF:\n• Thoughts of self-harm\n• Can\x27t sleep 3+ days\n• Unable to perform duties\n• Panic attacks increasing\n• Loss of appetite >48 hours\n\n📞 SUPPORT AVAILABLE:\n• Flight surgeon 24/7\n• Confidential psych support\n• No judgment - 60% of missions\n• Medication available if needed\n\n💙 REMEMBER:\nYou were chosen for exceptional capability. Every astronaut faces challenges. Asking for help is professional strength.\n\nWhat\x27s specifically concerning you? Or want a distraction?",
    severity := "INFO",
    category := "psychological",
    questions := ["What specifically is worrying you?", "Would you like to talk about it or prefer a distraction?"] }
]

/-- The fixed category -> keyword-list table from `extract_emergency_type`,
in the dict-literal order of the source. -/
def emergency_categories : List (String × List String) := [
  ("oxygen/breathing", ["oxygen", "o2", "air", "breath", "suffocate", "atmosphere"]),
  ("fire", ["fire", "flame", "smoke", "burning", "burn"]),
  ("hull breach", ["breach", "hole", "pressure", "depressurization", "vacuum"]),
  ("radiation", ["radiation", "solar", "flare", "dosimeter"]),
  ("power", ["power", "electrical", "battery", "energy"]),
  ("communication", ["comms", "communication", "radio", "signal", "antenna"]),
  ("medical", ["injured", "hurt", "sick", "pain", "bleeding", "unconscious"]),
  ("navigation", ["lost", "navigation", "position", "course"]),
  ("life support", ["life support", "co2", "temperature", "hot", "cold"])
]

/-! ### Keyword index (`build_keyword_index`) -/

/-- Append index entry `i` under key `k` (dict insertion order: a new key goes
to the end, an existing key's list is extended in place). -/
def indexAdd (ix : List (String × List Nat)) (k : String) (i : Nat) :
    List (String × List Nat) :=
  match ix with
  | [] => [(k, [i])]
  | (k2, l) :: rest =>
    if k2 = k then (k2, l ++ [i]) :: rest else (k2, l) :: indexAdd rest k i

/-- `build_keyword_index`: inverted index from lowercased keyword to the list
of dataset indices declaring it, in dataset order. -/
def build_keyword_index (dataset : List Entry) : List (String × List Nat) :=
  dataset.enum.foldl
    (fun ix p => p.2.keywords.foldl (fun ix kw => indexAdd ix (pyLower kw) p.1) ix) []

/-- Dict lookup in the association-list index. -/
def listLookup (ix : List (String × List Nat)) (k : String) : Option (List Nat) :=
  (ix.find? (fun p => p.1 == k)).map (·.2)

/-! ### Fuzzy scorer (`fuzzy_keyword_match`, `longest_common_substring`) -/

/-- The running match length of the source's inner `while` loop: the longest
common prefix of two suffixes. -/
def matchLen : List Char → List Char → Nat
  | c :: cs, d :: ds => if c = d then matchLen cs ds + 1 else 0
  | _, _ => 0

/-- Maximum of `matchLen s1` over all suffixes of the second argument
(the source's loop over `j`). -/
def bestFrom (s1 : List Char) : List Char → Nat
  | [] => 0
  | d :: ds => max (matchLen s1 (d :: ds)) (bestFrom s1 ds)

/-- `longest_common_substring`: maximum running match length over all pairs of
start positions. -/
def longest_common_substring : List Char → List Char → Nat
  | [], _ => 0
  | c :: cs, s2 => max (bestFrom (c :: cs) s2) (longest_common_substring cs s2)

/-- The scoring events contributed by one `(word, keyword)` pair of the
partial-match loop: +5 per listed entry on containment either way, else +3 per
listed entry on a common substring of length ≥ 4, provided both strings have
length ≥ 4. -/
def pairEvents (word : String) (kl : String × List Nat) : List (Nat × Nat) :=
  if 4 ≤ word.length ∧ 4 ≤ kl.1.length then
    if pyIn word kl.1 || pyIn kl.1 word then kl.2.map (fun i => (i, 5))
    else if 4 ≤ longest_common_substring word.data kl.1.data then kl.2.map (fun i => (i, 3))
    else []
  else []

/-- The +10-per-entry events of the exact-match rule (`word in keyword_index`). -/
def exactEvents (ix : List (String × List Nat)) (word : String) : List (Nat × Nat) :=
  match listLookup ix word with
  | some l => l.map (fun i => (i, 10))
  | none => []

/-- All scoring events of one token, in the order the source's loops emit
them: the exact-match rule first, then the partial-match loop over the index. -/
def creditEventsWord (ix : List (String × List Nat)) (word : String) : List (Nat × Nat) :=
  exactEvents ix word ++ ix.flatMap (pairEvents word)

/-- All scoring events of a message, scanning tokens left to right.  Each
event `(i, v)` is one `matches[i] += v` executed by the source. -/
def creditEvents (ix : List (String × List Nat)) (input : String) : List (Nat × Nat) :=
  (tokenize (pyLower input)).flatMap (creditEventsWord ix)

/-- `Counter.__iadd__` on the association list: increment in place if the key
is present, else append it (dict insertion order). -/
def counterAdd (c : List (Nat × Nat)) (e v : Nat) : List (Nat × Nat) :=
  match c with
  | [] => [(e, v)]
  | (k, x) :: rest => if k = e then (k, x + v) :: rest else (k, x) :: counterAdd rest e v

/-- Run all scoring events against a counter. -/
def applyEvents (c : List (Nat × Nat)) (evs : List (Nat × Nat)) : List (Nat × Nat) :=
  evs.foldl (fun c p => counterAdd c p.1 p.2) c

/-- Stable insertion for a descending sort: the new pair goes after all pairs
of greater-or-equal score, matching Python's stable `sorted(..., reverse=True)`
used by `Counter.most_common`. -/
def insertDesc (p : Nat × Nat) : List (Nat × Nat) → List (Nat × Nat)
  | [] => [p]
  | q :: qs => if q.2 < p.2 then p :: q :: qs else q :: insertDesc p qs

/-- Stable descending sort by score (`Counter.most_common()`). -/
def sortDesc (l : List (Nat × Nat)) : List (Nat × Nat) :=
  l.foldl (fun acc p => insertDesc p acc) []

/-- `fuzzy_keyword_match`: accumulate all scoring events into the counter,
then list `(index, score)` pairs in descending score order, ties kept in
counter (first-credit) order. -/
def fuzzy_keyword_match (bot : Bot) (user_input : String) : List (Nat × Nat) :=
  sortDesc (applyEvents [] (creditEvents bot.keyword_index user_input))

/-! ### Intent detection vocabularies and `detect_emergency_intent` -/

def greeting_words : List String := ["hi", "hello", "hey", "greetings", "sup"]

def farewell_words : List String := ["bye", "goodbye", "see you", "exit", "quit"]

def status_words : List String := ["status", "report"]

def thanks_words : List String := ["thank", "thanks"]

def urgency_words : List String :=
  ["emergency", "urgent", "help", "sos", "crisis", "critical", "mayday", "911"]

def mortality_words : List String := ["dying", "dead", "death"]

def inability_words : List String := ["can\x27t", "cannot", "unable", "won\x27t", "failing"]

/-- `detect_emergency_intent`: any of the three word-boundary vocabulary
patterns, or two consecutive exclamation marks, in the lowercased message. -/
def detect_emergency_intent (message : String) : Bool :=
  let ml := pyLower message
  reSearchVocab urgency_words ml || reSearchVocab mortality_words ml ||
    reSearchVocab inability_words ml || pyIn "!!" ml

/-- `extract_emergency_type`: the categories of the fixed table one of whose
keywords occurs as a substring of the lowercased message, in table order. -/
def extract_emergency_type (message : String) : List String :=
  let ml := pyLower message
  (emergency_categories.filter (fun ckw => ckw.2.any (fun k => pyIn k ml))).map (·.1)

/-- Candidate test of the emergency-clarification path: the detected category
token occurs in the entry's lowercased category or in one of its keywords. -/
def etMatchesEntry (et : String) (e : Entry) : Bool :=
  pyIn et (pyLower e.category) || e.keywords.any (fun kw => pyIn et kw)

/-- The candidate-collection loop of the emergency-clarification path: scan
entries in dataset order, append an entry on the first matching detected type
unless an equal entry is already collected. -/
def collectOptions (dataset : List Entry) (ets : List String) : List Entry :=
  dataset.foldl
    (fun opts e =>
      ets.foldl
        (fun o et => if etMatchesEntry et e then (if e ∈ o then o else o ++ [e]) else o)
        opts)
    []

/-! ### Name extraction (layer 3 of `generate_response`) -/

/-- Python `str.capitalize`: first character uppercased, the rest lowercased. -/
def capitalizePy (w : List Char) : String :=
  match w with
  | [] => ""
  | c :: cs => ⟨c.toUpper :: cs.map Char.toLower⟩

/-- The alternatives of the first name pattern, in regex order. -/
def p1_alternatives : List String := ["name is", "i\x27m", "im", "i am", "call me"]

/-- Match `\s+(\w+)` at the start of `s`, returning the captured word.
(`\s` and `\w` are disjoint, so the greedy whitespace run is exact.) -/
def matchSpacesWord : List Char → Option (List Char)
  | [] => none
  | c :: cs =>
    if isSpacePy c then
      let w := (cs.dropWhile isSpacePy).takeWhile isWordChar
      if w.isEmpty then none else some w
    else none

/-- Try pattern 1 at one start position: each alternative in order, then
`\s+(\w+)`. -/
def tryP1At (s : List Char) : Option (List Char) :=
  p1_alternatives.findSome? fun a =>
    if a.data.isPrefixOf s then matchSpacesWord (s.drop a.data.length) else none

/-- `re.search` scan for pattern 1 (`(?:name is|i'm|im|i am|call me)\s+(\w+)`). -/
def searchP1 : List Char → Option (List Char)
  | [] => none
  | c :: cs =>
    match tryP1At (c :: cs) with
    | some w => some w
    | none => searchP1 cs

/-- Pattern 2, anchored: `^(\w+)\s+(?:here|reporting)`. -/
def matchP2 (s : List Char) : Option (List Char) :=
  let w := s.takeWhile isWordChar
  if w.isEmpty then none
  else
    match s.dropWhile isWordChar with
    | [] => none
    | c :: cs =>
      if isSpacePy c then
        let r := cs.dropWhile isSpacePy
        if "here".data.isPrefixOf r || "reporting".data.isPrefixOf r then some w else none
      else none

/-- Try pattern 3 at one start position: `this is\s+(\w+)`. -/
def tryP3At (s : List Char) : Option (List Char) :=
  if "this is".data.isPrefixOf s then matchSpacesWord (s.drop "this is".data.length) else none

/-- `re.search` scan for pattern 3. -/
def searchP3 : List Char → Option (List Char)
  | [] => none
  | c :: cs =>
    match tryP3At (c :: cs) with
    | some w => some w
    | none => searchP3 cs

/-- Layer 3's extraction: the three patterns in order over the lowercased
message; the captured word is capitalized. -/
def extract_name (ml : String) : Option String :=
  match searchP1 ml.data with
  | some w => some (capitalizePy w)
  | none =>
    match matchP2 ml.data with
    | some w => some (capitalizePy w)
    | none => (searchP3 ml.data).map capitalizePy

/-! ### Response texts

Each definition transcribes one response literal of `generate_response` (the
f-string interpolations become explicit arguments).  The greeting, farewell,
status and thanks branches of the source assign `response` without returning,
and layers 4-7 below unconditionally reassign it, so those four texts are
dead stores in the source; they are still defined here (`greeting_response_new`
is the text the specification expects a greeting to produce). -/

def greeting_response_new : String :=
  "👋 Greetings, Space Agent! I\x27m " ++ agent_name ++ ", your AI mission support system.\n\nI can help with:\n🚨 Emergencies (oxygen, fire, hull breach, etc.)\n⚙️ System diagnostics\n🏥 Medical situations\n📡 Communication issues\n🧠 Psychological support\n\nWhat\x27s your call sign (name)?"

def greeting_response_known (n : String) : String :=
  "Welcome back, Agent " ++ n ++ "! All systems ready. How can I assist?"

def farewell_response (n : Option String) : String :=
  "🛰️ Safe travels, Agent " ++ n.getD "" ++ "!\n\nMission Control standing by. We\x27re here 24/7 when you need us.\n\nStay safe among the stars! 🌟"

/-- The status text (dead store); the source interpolates
`datetime.now().strftime('%H:%M:%S UTC')`, modelled by the `timeStr` argument. -/
def status_response (timeStr : String) (protocols : Nat) : String :=
  "📊 SYSTEM STATUS - " ++ timeStr ++ "\n\n✓ AI: ONLINE\n✓ Knowledge Base: " ++ toString protocols ++ " protocols\n✓ Comms: NOMINAL\n✓ Mission: " ++ mission_status ++ "\n\nReady to assist!"

def thanks_response : String :=
  "You\x27re welcome, agent! Always here to help. What else do you need?"

def name_confirmation (n : String) : String :=
  "✅ Call sign registered: Agent " ++ n ++ "\n\nExcellent! I\x27m ready to assist you with any situation.\n\nWhat do you need help with?"

/-- `f"{i+1}. {opt['category'].upper().replace('_', ' ')}\n"`'s category text. -/
def categoryDisplay (c : String) : String :=
  ⟨(pyUpper c).data.map (fun ch => if ch = '_' then ' ' else ch)⟩

/-- The numbered option lines of a clarification list. -/
def clarification_lines (opts : List Entry) : String :=
  String.join (opts.enum.map (fun p => toString (p.1 + 1) ++ ". " ++ categoryDisplay p.2.category ++ "\n"))

def multi_topic_response (opts : List Entry) : String :=
  "I found multiple topics that might help:\n\n" ++ clarification_lines opts ++
    "\nWhich one do you need? (Type number or name)"

def emergency_specify_response (opts : List Entry) : String :=
  "🚨 EMERGENCY DETECTED! Please specify:\n\n" ++ clarification_lines opts ++
    "\nWhich emergency are you experiencing? (Type number or name)"

def emergency_detected_response (e : Entry) : String :=
  "⚠️ EMERGENCY DETECTED - " ++ pyUpper e.category ++ "\n\n" ++ e.response

def emergency_detected_plain (e : Entry) : String :=
  "⚠️ EMERGENCY DETECTED\n\n" ++ e.response

/-- Up to three follow-up questions appended to a single best match. -/
def question_suffix (e : Entry) : String :=
  if e.questions.isEmpty then ""
  else "\n\n❓ To help further:\n" ++
    String.join ((e.questions.take 3).map (fun q => "• " ++ q ++ "\n"))

def context_response (topic : String) : String :=
  "I\x27m still here to help with your " ++ topic ++ " situation.\n\nCould you provide more details? Or ask about:\n• Different emergency\n• System check\n• Space information\n• Psychological support"

def fallback_menu : String :=
  "🤔 I want to help but need more details.\n\nI\x27m trained on:\n\n🚨 EMERGENCIES:\n• Oxygen/air problems\n• Fire\n• Hull breach/pressure loss\n• Radiation exposure\n• Medical injuries\n\n⚙️ SYSTEMS:\n• Power/electrical\n• Communication\n• Navigation\n• Life support\n\n🌌 INFORMATION:\n• Planets & space facts\n• Mission data\n\n🧠 SUPPORT:\n• Stress & anxiety help\n\nWhat do you need help with?"

def general_emergency_response : String :=
  "🚨 EMERGENCY PROTOCOL ACTIVATED\n\nI detect an emergency but need to know the type. Please specify:\n\n1. 💨 OXYGEN/AIR - Leak, low O2, can\x27t breathe\n2. 🔥 FIRE - Flames, smoke, burning\n3. 🕳️ HULL BREACH - Hole, depressurization, pressure loss\n4. ☢️ RADIATION - Solar flare, high dosimeter reading\n5. ⚡ POWER FAILURE - Electrical issues, battery dead\n6. 📡 COMMUNICATION LOSS - Can\x27t reach Earth\n7. 🏥 MEDICAL - Injury, illness, unconscious crew\n8. 🧭 NAVIGATION - Lost, off course\n9. 🌬️ LIFE SUPPORT - CO2 high, temperature issues\n\nType the NUMBER or NAME of your emergency for immediate protocol!"

/-! ### The dialogue-state tracker (`generate_response`) -/

/-- Append the assistant's reply to the history and return it: the
`conversation_history.append({"role": "assistant", ...}); return response`
pairs of the source. -/
def finishTurn (bot : Bot) (now : Nat) (response : String) : Option (String × Bot) :=
  some (response,
    { bot with conversation_history :=
        bot.conversation_history ++ [{ role := "assistant", message := response, timestamp := now }] })

/-- Layer 1's scan: the first pending option whose 1-based number occurs in
the raw message or whose lowercased category occurs in the lowercased
message.  Active only while `awaiting_clarification` with a non-empty list. -/
def clarification_answer (awaiting : Bool) (options : List Entry) (message ml : String) :
    Option Entry :=
  if awaiting && !options.isEmpty then
    (options.enum.find? fun p =>
        pyIn (toString (p.1 + 1)) message || pyIn (pyLower p.2.category) ml).map (·.2)
  else none

/-- The guard chain of layer 2 (greeting / farewell / status / thanks).  In
the source each branch stores a response that layers 4-7 later overwrite, so
the chain's only observable effect is blocking layer 3's name capture. -/
def basic_intent_matched (message ml : String) : Bool :=
  reSearchVocab greeting_words ml || reSearchVocab farewell_words ml ||
    (reSearchVocab status_words ml && !detect_emergency_intent message) ||
    reSearchVocab thanks_words ml

/-- Look up the entries for scored matches (`self.dataset[idx]`), in order;
`none` as soon as an index is out of range (the source would raise). -/
def optionEntries (ds : List Entry) : List (Nat × Nat) → Option (List Entry)
  | [] => some []
  | m :: rest =>
    match ds.get? m.1, optionEntries ds rest with
    | some e, some os => some (e :: os)
    | _, _ => none

/-- The unclear-emergency sub-path of layer 4 (fuzzy top score below 5):
coarse category extraction, then direct answer / clarification / generic menu
by candidate count.  The FULL candidate list is stored, only the first five
are displayed. -/
def emergency_unclear (bot : Bot) (now : Nat) (message : String) : Option (String × Bot) :=
  let emergency_types := extract_emergency_type message
  if emergency_types.isEmpty then finishTurn bot now general_emergency_response
  else
    let options := collectOptions bot.dataset emergency_types
    match options with
    | [] => finishTurn bot now general_emergency_response
    | [o] => finishTurn { bot with last_topic := some o.category } now (emergency_detected_plain o)
    | o1 :: o2 :: rest =>
      finishTurn
        { bot with clarification_options := o1 :: o2 :: rest, awaiting_clarification := true }
        now (emergency_specify_response ((o1 :: o2 :: rest).take 5))

/-- Layers 6-7: contextual follow-up if a truthy `last_topic` is set and the
history (including the just-appended user message) has more than two entries,
else the full fallback menu. -/
def context_or_fallback (bot : Bot) (now : Nat) : Option (String × Bot) :=
  match bot.last_topic with
  | some topic =>
    if topic ≠ "" ∧ 2 < bot.conversation_history.length then
      finishTurn bot now (context_response topic)
    else finishTurn bot now fallback_menu
  | none => finishTurn bot now fallback_menu

/-- Layers 4-7: emergency detection with fuzzy matching, then the
non-emergency query path, contextual follow-up and fallback. -/
def layers_4_7 (bot : Bot) (now : Nat) (message : String) : Option (String × Bot) :=
  if detect_emergency_intent message then
    match fuzzy_keyword_match bot message with
    | (idx, score) :: _ =>
      if 5 ≤ score then
        match bot.dataset.get? idx with
        | some best =>
          finishTurn { bot with last_topic := some best.category } now
            (emergency_detected_response best)
        | none => none
      else emergency_unclear bot now message
    | [] => emergency_unclear bot now message
  else
    match fuzzy_keyword_match bot message with
    | (idx, score) :: rest =>
      if 3 ≤ score then
        let good_matches := ((idx, score) :: rest).filter (fun m => 8 ≤ m.2)
        if 1 < good_matches.length then
          match optionEntries bot.dataset (good_matches.take 5) with
          | some opts =>
            finishTurn
              { bot with clarification_options := opts, awaiting_clarification := true } now
              (multi_topic_response opts)
          | none => none
        else
          match bot.dataset.get? idx with
          | some best =>
            finishTurn { bot with last_topic := some best.category } now
              (best.response ++ question_suffix best)
          | none => none
      else context_or_fallback bot now
    | [] => context_or_fallback bot now

/-- `generate_response`: append the user message to history, then run the
priority layers.  Only layer 1 (clarification) and layer 3 (successful name
capture) return early in the source; the layer-2 branches store dead
responses (see `basic_intent_matched`) and control always reaches layers 4-7
otherwise. -/
def generate_response (bot : Bot) (now : Nat) (message : String) : Option (String × Bot) :=
  let bot1 : Bot :=
    { bot with conversation_history :=
        bot.conversation_history ++ [{ role := "user", message := message, timestamp := now }] }
  let message_lower := pyLower message
  match clarification_answer bot1.awaiting_clarification bot1.clarification_options
      message message_lower with
  | some option =>
    finishTurn
      { bot1 with awaiting_clarification := false, last_topic := some option.category,
                  clarification_options := [] } now option.response
  | none =>
    if basic_intent_matched message message_lower then layers_4_7 bot1 now message
    else if bot1.user_name.isNone then
      match extract_name message_lower with
      | some nm => finishTurn { bot1 with user_name := some nm } now (name_confirmation nm)
      | none => layers_4_7 bot1 now message
    else layers_4_7 bot1 now message

/-- A freshly constructed chatbot (`__init__` with the default dataset). -/
def fresh_bot : Bot :=
  { user_name := none, last_topic := none, awaiting_clarification := false,
    clarification_options := [], conversation_history := [],
    dataset := default_dataset, keyword_index := build_keyword_index default_dataset }

/-- An arbitrary session over the default catalog: the mutable session fields
are free, the catalog and index are the default ones. -/
def mk_session (un lt : Option String) (aw : Bool) (opts : List Entry)
    (hist : List HistEntry) : Bot :=
  { user_name := un, last_topic := lt, awaiting_clarification := aw,
    clarification_options := opts, conversation_history := hist,
    dataset := default_dataset, keyword_index := build_keyword_index default_dataset }

/-- The states a session can reach from a freshly constructed chatbot by any
sequence of `generate_response` calls. -/
inductive Reachable : Bot → Prop
  | init : Reachable fresh_bot
  | step {b : Bot} {now : Nat} {msg r : String} {b' : Bot} :
      Reachable b → generate_response b now msg = some (r, b') → Reachable b'

/-! ### Counter and event-sum infrastructure -/

def counterGet : List (Nat × Nat) → Nat → Nat
  | [], _ => 0
  | (k, x) :: rest, e => if k = e then x else counterGet rest e

def eventScore (evs : List (Nat × Nat)) (e : Nat) : Nat :=
  ((evs.filter (fun p => p.1 == e)).map (·.2)).sum

/-- The dict-key order produced by running scoring events against a counter
whose keys are `ks`: each event's entry is appended the first time it is
credited.  `keysAfter [] evs` is therefore the order in which entries are
first credited during the scan (every credit is one of +10/+5/+3, hence
nonzero). -/
def keysAfter : List Nat → List (Nat × Nat) → List Nat
  | ks, [] => ks
  | ks, p :: es => keysAfter (if p.1 ∈ ks then ks else ks ++ [p.1]) es

/-- The order in which catalog entries are first credited a (nonzero) score
while the fuzzy scorer scans tokens left to right and applies its rules. -/
def first_credit_order (ix : List (String × List Nat)) (input : String) : List Nat :=
  keysAfter [] (creditEvents ix input)

/-- Erase the time-dependent field of every history record. -/
def eraseTimestamps (b : Bot) : Bot :=
  { b with conversation_history :=
      b.conversation_history.map (fun h => { h with timestamp := 0 }) }

/-! ### Global proof options

The concrete evaluations below reduce the whole pipeline (index construction,
scoring over about one hundred keywords, response assembly) inside the
kernel, which needs a deeper recursion stack than the default. -/

set_option maxRecDepth 1000000

set_option maxHeartbeats 4000000

/-! ### Counter and event-sum lemmas -/

theorem eventScore_append (a b : List (Nat × Nat)) (e : Nat) :
    eventScore (a ++ b) e = eventScore a e + eventScore b e := by
  simp [eventScore, List.filter_append]

theorem eventScore_cons (p : Nat × Nat) (evs : List (Nat × Nat)) (e : Nat) :
    eventScore (p :: evs) e = (if p.1 = e then p.2 else 0) + eventScore evs e := by
  simp only [eventScore, List.filter_cons]
  split
  · next h => simp only [List.map_cons, List.sum_cons]; simp only [beq_iff_eq] at h; simp [h]
  · next h => simp only [beq_iff_eq] at h; simp [h]

theorem counterGet_counterAdd (c : List (Nat × Nat)) (k v e : Nat) :
    counterGet (counterAdd c k v) e = counterGet c e + (if k = e then v else 0) := by
  induction c with
  | nil => simp [counterAdd, counterGet]
  | cons p rest ih =>
    obtain ⟨pk, px⟩ := p
    by_cases h : pk = k
    · subst h
      simp only [counterAdd, if_pos rfl, counterGet]
      by_cases h2 : pk = e
      · subst h2; simp
      · simp [h2]
    · simp only [counterAdd, if_neg h, counterGet]
      by_cases h2 : pk = e
      · subst h2
        have h3 : ¬ k = pk := fun hh => h hh.symm
        simp [h3]
      · simp [h2, ih]

theorem counterGet_applyEvents (evs : List (Nat × Nat)) (c : List (Nat × Nat)) (e : Nat) :
    counterGet (applyEvents c evs) e = counterGet c e + eventScore evs e := by
  induction evs generalizing c with
  | nil => simp [applyEvents, eventScore]
  | cons p rest ih =>
    simp only [applyEvents, List.foldl_cons] at *
    rw [ih, counterGet_counterAdd, eventScore_cons]
    omega

theorem eventScore_flatMap (f : α → List (Nat × Nat)) (l : List α) (e : Nat) :
    eventScore (l.flatMap f) e = (l.map (fun x => eventScore (f x) e)).sum := by
  induction l with
  | nil => simp [eventScore]
  | cons x xs ih => simp [List.flatMap_cons, eventScore_append, ih]

theorem le_eventScore_of_mem {e v : Nat} {evs : List (Nat × Nat)}
    (h : (e, v) ∈ evs) : v ≤ eventScore evs e := by
  induction evs with
  | nil => simp at h
  | cons p rest ih =>
    rcases List.mem_cons.1 h with h1 | h2
    · subst h1
      rw [eventScore_cons]
      simp
    · rw [eventScore_cons]
      have := ih h2
      omega

theorem eventScore_map_const (l : List Nat) (v e : Nat) :
    eventScore (l.map (fun i => (i, v))) e = v * l.count e := by
  induction l with
  | nil => simp [eventScore]
  | cons x xs ih =>
    simp only [List.map_cons, eventScore_cons]
    rw [ih, List.count_cons]
    by_cases h : x = e
    · subst h
      simp only [if_pos rfl, beq_self_eq_true, if_pos]
      rw [Nat.mul_add, Nat.mul_one]
      exact Nat.add_comm _ _
    · simp [h, Ne.symm h]

/-! ### Stable-sort and key-order lemmas -/

theorem mem_insertDesc {p a : Nat × Nat} {l : List (Nat × Nat)} :
    a ∈ insertDesc p l ↔ a = p ∨ a ∈ l := by
  induction l with
  | nil => simp [insertDesc]
  | cons q qs ih =>
    simp only [insertDesc]
    split
    · simp [List.mem_cons]
    · simp only [List.mem_cons, ih]
      tauto

theorem insertDesc_pairwise {l : List (Nat × Nat)}
    (h : l.Pairwise (fun a b => b.2 ≤ a.2)) (p : Nat × Nat) :
    (insertDesc p l).Pairwise (fun a b => b.2 ≤ a.2) := by
  induction l with
  | nil => simp [insertDesc]
  | cons q qs ih =>
    rw [List.pairwise_cons] at h
    obtain ⟨hq, hqs⟩ := h
    simp only [insertDesc]
    split
    · next hlt =>
      refine List.Pairwise.cons ?_ (List.Pairwise.cons hq hqs)
      intro b hb
      rcases List.mem_cons.1 hb with rfl | hb2
      · exact Nat.le_of_lt hlt
      · exact le_trans (hq b hb2) (Nat.le_of_lt hlt)
    · next hge =>
      push_neg at hge
      refine List.Pairwise.cons ?_ (ih hqs)
      intro b hb
      rcases mem_insertDesc.1 hb with rfl | hb2
      · exact hge
      · exact hq b hb2

theorem sortDesc_aux_pairwise (l : List (Nat × Nat)) :
    ∀ acc : List (Nat × Nat), acc.Pairwise (fun a b => b.2 ≤ a.2) →
      (l.foldl (fun acc p => insertDesc p acc) acc).Pairwise (fun a b => b.2 ≤ a.2) := by
  induction l with
  | nil => intro acc h; simpa using h
  | cons x xs ih =>
    intro acc h
    simp only [List.foldl_cons]
    exact ih _ (insertDesc_pairwise h x)

theorem sortDesc_pairwise (l : List (Nat × Nat)) :
    (sortDesc l).Pairwise (fun a b => b.2 ≤ a.2) :=
  sortDesc_aux_pairwise l [] (by simp)

theorem filter_insertDesc (k : Nat) {l : List (Nat × Nat)}
    (h : l.Pairwise (fun a b => b.2 ≤ a.2)) (p : Nat × Nat) :
    (insertDesc p l).filter (fun q => q.2 == k) =
      if p.2 = k then l.filter (fun q => q.2 == k) ++ [p]
      else l.filter (fun q => q.2 == k) := by
  induction l with
  | nil =>
    by_cases hp : p.2 = k <;> simp [insertDesc, List.filter_cons, hp]
  | cons q qs ih =>
    rw [List.pairwise_cons] at h
    obtain ⟨hq, hqs⟩ := h
    simp only [insertDesc]
    split
    · next hlt =>
      by_cases hp : p.2 = k
      · have hqk : ¬ (q.2 = k) := by omega
        have hq2 : (q.2 == k) = false := by simpa using hqk
        have hfqs : qs.filter (fun r => r.2 == k) = [] := by
          rw [List.filter_eq_nil_iff]
          intro b hb
          have hle := hq b hb
          have hbk : ¬ (b.2 = k) := by omega
          simpa using hbk
        simp [hp, hq2, hfqs]
      · simp [hp]
    · next hge =>
      simp only [List.filter_cons, ih hqs]
      by_cases hqk : q.2 = k <;> by_cases hp : p.2 = k <;>
        simp [hqk, hp]

theorem filter_sortDesc_aux (l : List (Nat × Nat)) (k : Nat) :
    ∀ acc : List (Nat × Nat), acc.Pairwise (fun a b => b.2 ≤ a.2) →
      (l.foldl (fun acc p => insertDesc p acc) acc).filter (fun q => q.2 == k) =
        acc.filter (fun q => q.2 == k) ++ l.filter (fun q => q.2 == k) := by
  induction l with
  | nil => intro acc h; simp
  | cons x xs ih =>
    intro acc h
    simp only [List.foldl_cons]
    rw [ih _ (insertDesc_pairwise h x), filter_insertDesc k h x]
    by_cases hx : x.2 = k
    · simp [hx, List.append_assoc]
    · simp [hx]

theorem filter_sortDesc (l : List (Nat × Nat)) (k : Nat) :
    (sortDesc l).filter (fun q => q.2 == k) = l.filter (fun q => q.2 == k) := by
  have := filter_sortDesc_aux l k [] (by simp)
  simpa [sortDesc] using this

theorem mem_sortDesc_aux (l : List (Nat × Nat)) :
    ∀ (acc : List (Nat × Nat)) (a : Nat × Nat),
      a ∈ l.foldl (fun acc p => insertDesc p acc) acc ↔ a ∈ acc ∨ a ∈ l := by
  induction l with
  | nil => intro acc a; simp
  | cons x xs ih =>
    intro acc a
    simp only [List.foldl_cons, ih, mem_insertDesc, List.mem_cons]
    tauto

theorem mem_sortDesc {l : List (Nat × Nat)} {a : Nat × Nat} :
    a ∈ sortDesc l ↔ a ∈ l := by
  have := mem_sortDesc_aux l [] a
  simpa [sortDesc] using this

theorem counterAdd_keys (c : List (Nat × Nat)) (k v : Nat) :
    (counterAdd c k v).map (·.1) =
      if k ∈ c.map (·.1) then c.map (·.1) else c.map (·.1) ++ [k] := by
  induction c with
  | nil => simp [counterAdd]
  | cons p rest ih =>
    obtain ⟨pk, px⟩ := p
    by_cases h : pk = k
    · subst h
      simp [counterAdd]
    · simp only [counterAdd, if_neg h, List.map_cons, ih]
      have hne : ¬ (k = pk) := fun hh => h hh.symm
      by_cases h2 : k ∈ rest.map (·.1) <;> simp [h2, hne]

theorem applyEvents_keys (evs : List (Nat × Nat)) (c : List (Nat × Nat)) :
    (applyEvents c evs).map (·.1) = keysAfter (c.map (·.1)) evs := by
  induction evs generalizing c with
  | nil => simp [applyEvents, keysAfter]
  | cons p rest ih =>
    simp only [applyEvents, List.foldl_cons] at *
    rw [ih, keysAfter]
    congr 1
    rw [counterAdd_keys]

/-! ### Time-independence lemmas -/

theorem eraseTimestamps_fields (b1 b2 : Bot) (h : eraseTimestamps b1 = eraseTimestamps b2) :
    b1.user_name = b2.user_name ∧ b1.last_topic = b2.last_topic ∧
    b1.awaiting_clarification = b2.awaiting_clarification ∧
    b1.clarification_options = b2.clarification_options ∧
    b1.conversation_history.map (fun h => { h with timestamp := 0 }) =
      b2.conversation_history.map (fun h => { h with timestamp := 0 }) ∧
    b1.dataset = b2.dataset ∧ b1.keyword_index = b2.keyword_index := by
  simp only [eraseTimestamps, Bot.mk.injEq] at h
  obtain ⟨h1, h2, h3, h4, h5, h6, h7⟩ := h
  exact ⟨h1, h2, h3, h4, h5, h6, h7⟩

theorem finishTurn_time {b1 b2 : Bot} (h : eraseTimestamps b1 = eraseTimestamps b2)
    (n1 n2 : Nat) (r : String) :
    (finishTurn b1 n1 r).map (fun p => (p.1, eraseTimestamps p.2)) =
      (finishTurn b2 n2 r).map (fun p => (p.1, eraseTimestamps p.2)) := by
  obtain ⟨h1, h2, h3, h4, h5, h6, h7⟩ := eraseTimestamps_fields b1 b2 h
  simp [finishTurn, eraseTimestamps, List.map_append, h1, h2, h3, h4, h5, h6, h7]

theorem context_or_fallback_time {b1 b2 : Bot} (h : eraseTimestamps b1 = eraseTimestamps b2)
    (n1 n2 : Nat) :
    (context_or_fallback b1 n1).map (fun p => (p.1, eraseTimestamps p.2)) =
      (context_or_fallback b2 n2).map (fun p => (p.1, eraseTimestamps p.2)) := by
  obtain ⟨h1, h2, h3, h4, h5, h6, h7⟩ := eraseTimestamps_fields b1 b2 h
  have hlen : b1.conversation_history.length = b2.conversation_history.length := by
    have := congrArg List.length h5
    simpa using this
  unfold context_or_fallback
  rw [h2, hlen]
  split
  · split
    · exact finishTurn_time h n1 n2 _
    · exact finishTurn_time h n1 n2 _
  · exact finishTurn_time h n1 n2 _

theorem emergency_unclear_time {b1 b2 : Bot} (h : eraseTimestamps b1 = eraseTimestamps b2)
    (n1 n2 : Nat) (msg : String) :
    (emergency_unclear b1 n1 msg).map (fun p => (p.1, eraseTimestamps p.2)) =
      (emergency_unclear b2 n2 msg).map (fun p => (p.1, eraseTimestamps p.2)) := by
  obtain ⟨h1, h2, h3, h4, h5, h6, h7⟩ := eraseTimestamps_fields b1 b2 h
  unfold emergency_unclear
  rw [h6]
  by_cases he : (extract_emergency_type msg).isEmpty
  · rw [if_pos he, if_pos he]
    exact finishTurn_time h n1 n2 _
  · rw [if_neg he, if_neg he]
    cases collectOptions b2.dataset (extract_emergency_type msg) with
    | nil => exact finishTurn_time h n1 n2 _
    | cons o os =>
      cases os with
      | nil =>
        refine finishTurn_time ?_ n1 n2 _
        simp [eraseTimestamps, Bot.mk.injEq, h1, h3, h4, h5, h6, h7]
      | cons o2 rest =>
        refine finishTurn_time ?_ n1 n2 _
        simp [eraseTimestamps, Bot.mk.injEq, h1, h2, h5, h6, h7]

theorem layers_4_7_time {b1 b2 : Bot} (h : eraseTimestamps b1 = eraseTimestamps b2)
    (n1 n2 : Nat) (msg : String) :
    (layers_4_7 b1 n1 msg).map (fun p => (p.1, eraseTimestamps p.2)) =
      (layers_4_7 b2 n2 msg).map (fun p => (p.1, eraseTimestamps p.2)) := by
  obtain ⟨h1, h2, h3, h4, h5, h6, h7⟩ := eraseTimestamps_fields b1 b2 h
  have hfuzzy : fuzzy_keyword_match b1 msg = fuzzy_keyword_match b2 msg := by
    unfold fuzzy_keyword_match
    rw [h7]
  unfold layers_4_7
  rw [hfuzzy, h6]
  by_cases hd : detect_emergency_intent msg
  · rw [if_pos hd, if_pos hd]
    cases fuzzy_keyword_match b2 msg with
    | nil => exact emergency_unclear_time h n1 n2 msg
    | cons p rest =>
      obtain ⟨idx, score⟩ := p
      simp only
      by_cases hs : 5 ≤ score
      · rw [if_pos hs, if_pos hs]
        cases hget : b2.dataset.get? idx with
        | none => rfl
        | some best =>
          refine finishTurn_time ?_ n1 n2 _
          simp [eraseTimestamps, Bot.mk.injEq, h1, h3, h4, h5, h6, h7]
      · rw [if_neg hs, if_neg hs]
        exact emergency_unclear_time h n1 n2 msg
  · rw [if_neg hd, if_neg hd]
    cases fuzzy_keyword_match b2 msg with
    | nil => exact context_or_fallback_time h n1 n2
    | cons p rest =>
      obtain ⟨idx, score⟩ := p
      simp only
      by_cases hs : 3 ≤ score
      · rw [if_pos hs, if_pos hs]
        by_cases hg : 1 < (((idx, score) :: rest).filter (fun m => 8 ≤ m.2)).length
        · rw [if_pos hg, if_pos hg]
          cases optionEntries b2.dataset ((((idx, score) :: rest).filter (fun m => 8 ≤ m.2)).take 5) with
          | none => rfl
          | some opts =>
            refine finishTurn_time ?_ n1 n2 _
            simp [eraseTimestamps, Bot.mk.injEq, h1, h2, h5, h6, h7]
        · rw [if_neg hg, if_neg hg]
          cases hget2 : b2.dataset.get? idx with
          | none => rfl
          | some best =>
            refine finishTurn_time ?_ n1 n2 _
            simp [eraseTimestamps, Bot.mk.injEq, h1, h3, h4, h5, h6, h7]
      · rw [if_neg hs, if_neg hs]
        exact context_or_fallback_time h n1 n2

/-! ### Index-validity and totality lemmas -/

theorem listLookup_mem {ix : List (String × List Nat)} {t : String} {l : List Nat}
    (h : listLookup ix t = some l) : (t, l) ∈ ix := by
  unfold listLookup at h
  cases hf : ix.find? (fun p => p.1 == t) with
  | none => rw [hf] at h; simp at h
  | some kl =>
    rw [hf] at h
    have hkey : kl.1 = t := by simpa using List.find?_some hf
    have hsnd : kl.2 = l := by simpa using h
    have hmem := List.mem_of_find?_eq_some hf
    have hkl : kl = (t, l) := by
      obtain ⟨k1, k2⟩ := kl
      simp only at hkey hsnd
      rw [hkey, hsnd]
    rwa [hkl] at hmem

theorem keysAfter_mem {a : Nat} (evs : List (Nat × Nat)) :
    ∀ ks : List Nat, a ∈ keysAfter ks evs → a ∈ ks ∨ a ∈ evs.map (·.1) := by
  induction evs with
  | nil => intro ks h; exact Or.inl (by simpa [keysAfter] using h)
  | cons p rest ih =>
    intro ks h
    simp only [keysAfter] at h
    rcases ih _ h with h2 | h2
    · by_cases hp : p.1 ∈ ks
      · rw [if_pos hp] at h2; exact Or.inl h2
      · rw [if_neg hp] at h2
        rcases List.mem_append.1 h2 with h3 | h3
        · exact Or.inl h3
        · simp only [List.mem_singleton] at h3
          subst h3
          exact Or.inr (by simp)
    · exact Or.inr (by simp [h2])

theorem mem_map_pair_fst {e v c : Nat} {l : List Nat}
    (h : (e, v) ∈ l.map (fun i => (i, c))) : e ∈ l := by
  rcases List.mem_map.1 h with ⟨x, hx, heq⟩
  injection heq with h1 h2
  subst h1
  exact hx

theorem pairEvents_key {e v : Nat} {w : String} {kl : String × List Nat}
    (h : (e, v) ∈ pairEvents w kl) : e ∈ kl.2 := by
  unfold pairEvents at h
  split at h
  · split at h
    · exact mem_map_pair_fst h
    · split at h
      · exact mem_map_pair_fst h
      · simp at h
  · simp at h

theorem mem_creditEventsWord {e v : Nat} {ix : List (String × List Nat)} {w : String}
    (h : (e, v) ∈ creditEventsWord ix w) : ∃ kl ∈ ix, e ∈ kl.2 := by
  unfold creditEventsWord at h
  rcases List.mem_append.1 h with h2 | h2
  · unfold exactEvents at h2
    cases hl : listLookup ix w with
    | none => rw [hl] at h2; simp at h2
    | some l =>
      rw [hl] at h2
      exact ⟨(w, l), listLookup_mem hl, mem_map_pair_fst h2⟩
  · rcases List.mem_flatMap.1 h2 with ⟨kl, hkl, hin⟩
    exact ⟨kl, hkl, pairEvents_key hin⟩

theorem fuzzy_key_lt {bot : Bot} {msg : String} {p : Nat × Nat} {n : Nat}
    (hvalid : ∀ kl ∈ bot.keyword_index, ∀ i ∈ kl.2, i < n)
    (h : p ∈ fuzzy_keyword_match bot msg) : p.1 < n := by
  rw [fuzzy_keyword_match] at h
  have h1 : p ∈ applyEvents [] (creditEvents bot.keyword_index msg) := mem_sortDesc.1 h
  have h2 : p.1 ∈ (applyEvents [] (creditEvents bot.keyword_index msg)).map (·.1) :=
    List.mem_map_of_mem _ h1
  have h3 : p.1 ∈ keysAfter [] (creditEvents bot.keyword_index msg) := by
    have hk := applyEvents_keys (creditEvents bot.keyword_index msg) []
    simp only [List.map_nil] at hk
    rwa [hk] at h2
  rcases keysAfter_mem _ [] h3 with h4 | h4
  · simp at h4
  · rcases List.mem_map.1 h4 with ⟨⟨e, v⟩, hev, hfst⟩
    simp only at hfst
    subst hfst
    rcases List.mem_flatMap.1 hev with ⟨w, _, hw⟩
    rcases mem_creditEventsWord hw with ⟨kl, hkl, hin⟩
    exact hvalid kl hkl _ hin

theorem default_index_valid :
    ∀ kl ∈ build_keyword_index default_dataset, ∀ i ∈ kl.2, i < default_dataset.length := by
  decide

theorem optionEntries_isSome {ds : List Entry} {ms : List (Nat × Nat)}
    (h : ∀ m ∈ ms, m.1 < ds.length) :
    ∃ os, optionEntries ds ms = some os ∧ os.length = ms.length := by
  induction ms with
  | nil => exact ⟨[], rfl, rfl⟩
  | cons m rest ih =>
    obtain ⟨os, hos, hlen⟩ := ih (fun x hx => h x (List.mem_cons_of_mem _ hx))
    have hm : m.1 < ds.length := h m (List.mem_cons_self _ _)
    have hget : ds[m.1]? = some (ds.get ⟨m.1, hm⟩) := by
      rw [List.getElem?_eq_getElem hm]
      rfl
    refine ⟨ds.get ⟨m.1, hm⟩ :: os, ?_, by simp [hlen]⟩
    simp [optionEntries, hget, hos]


theorem finishTurn_isSome (b : Bot) (n : Nat) (r : String) : (finishTurn b n r).isSome := rfl

theorem emergency_unclear_isSome (bot : Bot) (now : Nat) (msg : String) :
    (emergency_unclear bot now msg).isSome := by
  unfold emergency_unclear
  by_cases he : (extract_emergency_type msg).isEmpty
  · rw [if_pos he]
    exact finishTurn_isSome _ _ _
  · rw [if_neg he]
    cases collectOptions bot.dataset (extract_emergency_type msg) with
    | nil => exact finishTurn_isSome _ _ _
    | cons o os =>
      cases os with
      | nil => exact finishTurn_isSome _ _ _
      | cons o2 rest => exact finishTurn_isSome _ _ _

theorem context_or_fallback_isSome (bot : Bot) (now : Nat) :
    (context_or_fallback bot now).isSome := by
  unfold context_or_fallback
  split
  · split <;> exact finishTurn_isSome _ _ _
  · exact finishTurn_isSome _ _ _

theorem layers_4_7_isSome (bot : Bot)
    (hvalid : ∀ kl ∈ bot.keyword_index, ∀ i ∈ kl.2, i < bot.dataset.length)
    (now : Nat) (msg : String) : (layers_4_7 bot now msg).isSome := by
  unfold layers_4_7
  split
  · cases hm : fuzzy_keyword_match bot msg with
    | nil => exact emergency_unclear_isSome _ _ _
    | cons p rest =>
      obtain ⟨idx, score⟩ := p
      simp only
      by_cases hs : 5 ≤ score
      · rw [if_pos hs]
        have hidx : idx < bot.dataset.length := by
          have hmem : ((idx, score) : Nat × Nat) ∈ fuzzy_keyword_match bot msg := by
            rw [hm]; exact List.mem_cons_self _ _
          exact fuzzy_key_lt hvalid hmem
        cases hg : bot.dataset.get? idx with
        | none =>
          exfalso
          have := List.get?_eq_none.1 hg
          omega
        | some best => simp [finishTurn]
      · rw [if_neg hs]
        exact emergency_unclear_isSome _ _ _
  · cases hm : fuzzy_keyword_match bot msg with
    | nil => exact context_or_fallback_isSome _ _
    | cons p rest =>
      obtain ⟨idx, score⟩ := p
      simp only
      by_cases hs : 3 ≤ score
      · rw [if_pos hs]
        by_cases hg : 1 < (((idx, score) :: rest).filter (fun m => 8 ≤ m.2)).length
        · rw [if_pos hg]
          have hall : ∀ m ∈ ((((idx, score) :: rest).filter (fun m => 8 ≤ m.2)).take 5),
              m.1 < bot.dataset.length := by
            intro m hmm
            have h1 : m ∈ ((idx, score) :: rest).filter (fun m => 8 ≤ m.2) :=
              List.mem_of_mem_take hmm
            have h2 : m ∈ (idx, score) :: rest := List.mem_of_mem_filter h1
            have h3 : m ∈ fuzzy_keyword_match bot msg := by rw [hm]; exact h2
            exact fuzzy_key_lt hvalid h3
          obtain ⟨os, hos, -⟩ := optionEntries_isSome hall
          rw [hos]
          exact finishTurn_isSome _ _ _
        · rw [if_neg hg]
          have hidx : idx < bot.dataset.length := by
            have hmem : ((idx, score) : Nat × Nat) ∈ fuzzy_keyword_match bot msg := by
              rw [hm]; exact List.mem_cons_self _ _
            exact fuzzy_key_lt hvalid hmem
          cases hgq : bot.dataset.get? idx with
          | none =>
            exfalso
            have := List.get?_eq_none.1 hgq
            omega
          | some best => simp [finishTurn]
      · rw [if_neg hs]
        exact context_or_fallback_isSome _ _

/-! ### Query-layer, tokenizer-containment and invariant lemmas -/

theorem sorted_head_ge {h : Nat × Nat} {t : List (Nat × Nat)}
    (hs : (h :: t).Pairwise (fun a b => b.2 ≤ a.2)) {m : Nat × Nat}
    (hm : m ∈ h :: t) : m.2 ≤ h.2 := by
  rcases List.mem_cons.1 hm with rfl | hm2
  · exact Nat.le_refl _
  · exact (List.pairwise_cons.1 hs).1 m hm2

theorem layers_4_7_multi (bot : Bot) (now : Nat) (msg : String)
    (hvalid : ∀ kl ∈ bot.keyword_index, ∀ i ∈ kl.2, i < bot.dataset.length)
    (hemerg : detect_emergency_intent msg = false)
    (hgood : 1 < ((fuzzy_keyword_match bot msg).filter (fun m => 8 ≤ m.2)).length) :
    ∃ os b', optionEntries bot.dataset
        (((fuzzy_keyword_match bot msg).filter (fun m => 8 ≤ m.2)).take 5) = some os ∧
      layers_4_7 bot now msg = some (multi_topic_response os, b') ∧
      b'.awaiting_clarification = true ∧ b'.clarification_options = os ∧ os.length ≤ 5 := by
  have hvalid5 : ∀ m ∈ (((fuzzy_keyword_match bot msg).filter (fun m => 8 ≤ m.2)).take 5),
      m.1 < bot.dataset.length := by
    intro m hmm
    exact fuzzy_key_lt hvalid (List.mem_of_mem_filter (List.mem_of_mem_take hmm))
  obtain ⟨os, hos, hoslen⟩ := optionEntries_isSome hvalid5
  have hlen5 : os.length ≤ 5 := by
    rw [hoslen]
    exact List.length_take_le _ _
  cases hm : fuzzy_keyword_match bot msg with
  | nil => rw [hm] at hgood; simp at hgood
  | cons p rest =>
    obtain ⟨idx, score⟩ := p
    have hsorted : ((idx, score) :: rest).Pairwise (fun a b => b.2 ≤ a.2) := by
      rw [← hm]; exact sortDesc_pairwise _
    have hgood2 : 1 < (((idx, score) :: rest).filter (fun m => 8 ≤ m.2)).length := by
      rw [hm] at hgood; exact hgood
    have hos2 : optionEntries bot.dataset
        ((((idx, score) :: rest).filter (fun m => 8 ≤ m.2)).take 5) = some os := by
      rw [hm] at hos; exact hos
    obtain ⟨m, hmf⟩ := List.exists_mem_of_length_pos
      (show 0 < (((idx, score) :: rest).filter (fun m => 8 ≤ m.2)).length by omega)
    have hm8 : 8 ≤ m.2 := by simpa using List.of_mem_filter hmf
    have hmmem : m ∈ (idx, score) :: rest := List.mem_of_mem_filter hmf
    have hscore : 3 ≤ score := by
      have := sorted_head_ge hsorted hmmem
      simp only at this
      omega
    have hne : ¬ (detect_emergency_intent msg = true) := by simp [hemerg]
    have hrun : layers_4_7 bot now msg =
        some (multi_topic_response os,
          { bot with
              clarification_options := os,
              awaiting_clarification := true,
              conversation_history := bot.conversation_history ++
                [{ role := "assistant", message := multi_topic_response os, timestamp := now }] }) := by
      unfold layers_4_7
      rw [if_neg hne]
      simp only [hm]
      rw [if_pos hscore, if_pos hgood2, hos2]
      rfl
    exact ⟨os, _, hos2, hrun, rfl, rfl, hlen5⟩


theorem multi_topic_head (os : List Entry) :
    (multi_topic_response os).data.head? = some 'I' := by
  simp [multi_topic_response, String.data_append]

theorem dataset_heads :
    ∀ r ∈ default_dataset.map (·.response), r.data.head? ≠ some 'I' := by decide



theorem prefix_takeWhile {p : Char → Bool} :
    ∀ (k s : List Char), k.all p → k <+: s → k <+: s.takeWhile p := by
  intro k
  induction k with
  | nil => intro s _ _; exact List.nil_prefix
  | cons c cs ih =>
    intro s hall hpre
    cases s with
    | nil => exact absurd (List.eq_nil_of_prefix_nil hpre) (by simp)
    | cons d ds =>
      have hcd : c = d := by
        have := List.prefix_cons_iff.1 hpre
        rcases this with h | ⟨t, ht, -⟩
        · simp at h
        · exact (List.cons.injEq .. ▸ ht).1
      subst hcd
      have hpc : p c = true := by simp at hall; exact hall.1
      rw [List.takeWhile_cons_of_pos hpc]
      have htail : cs <+: ds := by
        rcases List.prefix_cons_iff.1 hpre with h | ⟨t, ht, hpre2⟩
        · simp at h
        · have : t = cs := by
            have := (List.cons.injEq .. ▸ ht).2
            exact this.symm
          rwa [this] at hpre2
      have hall2 : cs.all p := by simp at hall; simpa using hall.2
      exact List.prefix_cons_iff.2 (Or.inr ⟨cs, rfl, ih ds hall2 htail⟩)

theorem infix_take_or_drop {p : Char → Bool} :
    ∀ (s k : List Char), k ≠ [] → k.all p → k <:+: s →
      k <:+: s.takeWhile p ∨ k <:+: s.dropWhile p := by
  intro s
  induction s with
  | nil =>
    intro k hne _ hinf
    exact absurd (List.eq_nil_of_infix_nil hinf) hne
  | cons c cs ih =>
    intro k hne hall hinf
    by_cases hpc : p c
    · rw [List.takeWhile_cons_of_pos hpc, List.dropWhile_cons_of_pos hpc]
      rcases List.infix_cons_iff.1 hinf with hpre | hinf2
      · have h1 : k <+: List.takeWhile p (c :: cs) := prefix_takeWhile k (c :: cs) hall hpre
        rw [List.takeWhile_cons_of_pos hpc] at h1
        exact Or.inl h1.isInfix
      · rcases ih k hne hall hinf2 with h | h
        · exact Or.inl (List.infix_cons h)
        · exact Or.inr h
    · rw [List.takeWhile_cons_of_neg hpc, List.dropWhile_cons_of_neg hpc]
      exact Or.inr hinf


theorem wordRunsF_congr :
    ∀ (f1 f2 : Nat) (s : List Char), s.length ≤ f1 → s.length ≤ f2 →
      wordRunsF f1 s = wordRunsF f2 s := by
  intro f1
  induction f1 with
  | zero =>
    intro f2 s h1 _
    have : s = [] := List.eq_nil_of_length_eq_zero (Nat.le_zero.1 h1)
    subst this
    cases f2 <;> rfl
  | succ f ih =>
    intro f2 s h1 h2
    cases f2 with
    | zero =>
      have : s = [] := List.eq_nil_of_length_eq_zero (Nat.le_zero.1 h2)
      subst this
      rfl
    | succ g =>
      cases s with
      | nil => rfl
      | cons c cs =>
        simp only [wordRunsF]
        by_cases hc : isWordChar c
        · rw [if_pos hc, if_pos hc]
          have hdrop : (List.dropWhile isWordChar (c :: cs)).length ≤ cs.length := by
            rw [List.dropWhile_cons_of_pos hc]
            exact length_dropWhile_le isWordChar cs
          simp only [List.length_cons] at h1 h2
          rw [ih g (List.dropWhile isWordChar (c :: cs)) (by omega) (by omega)]
        · rw [if_neg hc, if_neg hc]
          simp only [List.length_cons] at h1 h2
          exact ih g cs (by omega) (by omega)

theorem infix_mem_wordRunsF :
    ∀ (fuel : Nat) (s k : List Char), s.length ≤ fuel → k ≠ [] → k.all isWordChar →
      k <:+: s → ∃ t ∈ wordRunsF fuel s, k <:+: t := by
  intro fuel
  induction fuel with
  | zero =>
    intro s k h1 hne _ hinf
    have : s = [] := List.eq_nil_of_length_eq_zero (Nat.le_zero.1 h1)
    subst this
    exact absurd (List.eq_nil_of_infix_nil hinf) hne
  | succ f ih =>
    intro s k h1 hne hall hinf
    cases s with
    | nil => exact absurd (List.eq_nil_of_infix_nil hinf) hne
    | cons c cs =>
      simp only [wordRunsF]
      by_cases hc : isWordChar c
      · rw [if_pos hc]
        rcases infix_take_or_drop (c :: cs) k hne hall hinf with h | h
        · exact ⟨List.takeWhile isWordChar (c :: cs), List.mem_cons_self _ _, h⟩
        · have hdrop : (List.dropWhile isWordChar (c :: cs)).length ≤ f := by
            rw [List.dropWhile_cons_of_pos hc]
            have := length_dropWhile_le isWordChar cs
            simp only [List.length_cons] at h1
            omega
          obtain ⟨t, ht, hkt⟩ := ih _ k hdrop hne hall h
          exact ⟨t, List.mem_cons_of_mem _ ht, hkt⟩
      · rw [if_neg hc]
        have hinf2 : k <:+: cs := by
          rcases List.infix_cons_iff.1 hinf with hpre | h
          · cases k with
            | nil => exact absurd rfl hne
            | cons a as =>
              have : a = c := by
                rcases List.prefix_cons_iff.1 hpre with hx | ⟨t, ht, -⟩
                · simp at hx
                · exact (List.cons.injEq .. ▸ ht).1
              subst this
              have : isWordChar a = true := by simp at hall; exact hall.1
              exact absurd this hc
          · exact h
        simp only [List.length_cons] at h1
        exact ih cs k (by omega) hne hall hinf2

theorem infix_mem_tokenize {msg k : String}
    (hne : k.data ≠ []) (hall : k.data.all isWordChar)
    (hin : pyIn k msg = true) :
    ∃ t ∈ tokenize msg, k.data <:+: t.data ∧ k.length ≤ t.length := by
  have hinf : k.data <:+: msg.data := by simpa [pyIn] using hin
  obtain ⟨t, ht, hkt⟩ :=
    infix_mem_wordRunsF msg.data.length msg.data k.data (Nat.le_refl _) hne hall hinf
  refine ⟨⟨t⟩, ?_, ?_, ?_⟩
  · unfold tokenize wordRuns
    exact List.mem_map_of_mem _ ht
  · exact hkt
  · exact hkt.length_le


theorem counterGet_mem : ∀ {c : List (Nat × Nat)} {e : Nat}, counterGet c e ≠ 0 →
    (e, counterGet c e) ∈ c := by
  intro c
  induction c with
  | nil => intro e h; simp [counterGet] at h
  | cons p rest ih =>
    intro e h
    obtain ⟨pk, px⟩ := p
    by_cases hk : pk = e
    · subst hk
      simp only [counterGet, if_pos rfl] at h ⊢
      exact List.mem_cons_self _ _
    · simp only [counterGet, if_neg hk] at h ⊢
      exact List.mem_cons_of_mem _ (ih h)

theorem fuzzy_top_ge (bot : Bot) (msg k : String) (l : List Nat) (e : Nat)
    (hlook : listLookup bot.keyword_index k = some l) (he : e ∈ l)
    (hne : k.data ≠ []) (hall : k.data.all isWordChar) (hlen : 4 ≤ k.length)
    (hsub : pyIn k (pyLower msg) = true) :
    ∃ p rest, fuzzy_keyword_match bot msg = p :: rest ∧ 5 ≤ p.2 := by
  obtain ⟨t, htok, hinf, hlen2⟩ := infix_mem_tokenize hne hall hsub
  have hpair : (e, (5 : Nat)) ∈ pairEvents t (k, l) := by
    unfold pairEvents
    have h4t : (4 : Nat) ≤ t.length := le_trans hlen hlen2
    rw [if_pos ⟨h4t, hlen⟩]
    have hkt : pyIn k t = true := by simpa [pyIn] using hinf
    rw [if_pos (by simp [hkt])]
    exact List.mem_map_of_mem _ he
  have hklmem : (k, l) ∈ bot.keyword_index := listLookup_mem hlook
  have hevw : (e, (5 : Nat)) ∈ creditEventsWord bot.keyword_index t := by
    unfold creditEventsWord
    exact List.mem_append.2 (Or.inr (List.mem_flatMap.2 ⟨(k, l), hklmem, hpair⟩))
  have hev : (e, (5 : Nat)) ∈ creditEvents bot.keyword_index msg := by
    unfold creditEvents
    exact List.mem_flatMap.2 ⟨t, htok, hevw⟩
  have hscore : 5 ≤ counterGet (applyEvents [] (creditEvents bot.keyword_index msg)) e := by
    rw [counterGet_applyEvents]
    have h5 := le_eventScore_of_mem hev
    simp only [counterGet]
    omega
  have hmem : (e, counterGet (applyEvents [] (creditEvents bot.keyword_index msg)) e) ∈
      applyEvents [] (creditEvents bot.keyword_index msg) := counterGet_mem (by omega)
  have hsort : (e, counterGet (applyEvents [] (creditEvents bot.keyword_index msg)) e) ∈
      fuzzy_keyword_match bot msg := by
    unfold fuzzy_keyword_match
    exact mem_sortDesc.2 hmem
  cases hfz : fuzzy_keyword_match bot msg with
  | nil => rw [hfz] at hsort; simp at hsort
  | cons p rest =>
    refine ⟨p, rest, rfl, ?_⟩
    rw [hfz] at hsort
    have hsorted : (p :: rest).Pairwise (fun a b => b.2 ≤ a.2) := by
      rw [← hfz]
      exact sortDesc_pairwise _
    have := sorted_head_ge hsorted hsort
    simp only at this
    omega


theorem top_of_kw (bot : Bot) (msg kw : String)
    (hL : (listLookup bot.keyword_index kw).getD [] ≠ [])
    (hne : kw.data ≠ []) (hall : kw.data.all isWordChar) (h4 : 4 ≤ kw.length)
    (hsub : pyIn kw (pyLower msg) = true) :
    ∃ p rest, fuzzy_keyword_match bot msg = p :: rest ∧ 5 ≤ p.2 := by
  cases hl : listLookup bot.keyword_index kw with
  | none => rw [hl] at hL; simp at hL
  | some l =>
    rw [hl] at hL
    simp only [Option.getD_some] at hL
    cases l with
    | nil => exact absurd rfl hL
    | cons e es =>
      exact fuzzy_top_ge bot msg kw (e :: es) e hl (List.mem_cons_self _ _) hne hall h4 hsub

theorem inner_fold_mem {e x : Entry} :
    ∀ (ets : List String) (acc : List Entry),
      x ∈ ets.foldl (fun o et =>
          if etMatchesEntry et e then (if e ∈ o then o else o ++ [e]) else o) acc →
      x ∈ acc ∨ (x = e ∧ ∃ et ∈ ets, etMatchesEntry et e = true) := by
  intro ets
  induction ets with
  | nil => intro acc h; exact Or.inl h
  | cons et rest ih =>
    intro acc h
    simp only [List.foldl_cons] at h
    rcases ih _ h with h2 | ⟨rfl, et2, hmem2, hmatch2⟩
    · by_cases hm : etMatchesEntry et e
      · rw [if_pos hm] at h2
        by_cases he : e ∈ acc
        · rw [if_pos he] at h2
          exact Or.inl h2
        · rw [if_neg he] at h2
          rcases List.mem_append.1 h2 with h3 | h3
          · exact Or.inl h3
          · simp only [List.mem_singleton] at h3
            exact Or.inr ⟨h3, et, List.mem_cons_self _ _, hm⟩
      · rw [if_neg hm] at h2
        exact Or.inl h2
    · exact Or.inr ⟨rfl, et2, List.mem_cons_of_mem _ hmem2, hmatch2⟩

theorem inner_fold_nodup {e : Entry} :
    ∀ (ets : List String) (acc : List Entry), acc.Nodup →
      (ets.foldl (fun o et =>
          if etMatchesEntry et e then (if e ∈ o then o else o ++ [e]) else o) acc).Nodup := by
  intro ets
  induction ets with
  | nil => intro acc h; exact h
  | cons et rest ih =>
    intro acc h
    simp only [List.foldl_cons]
    refine ih _ ?_
    by_cases hm : etMatchesEntry et e
    · rw [if_pos hm]
      by_cases he : e ∈ acc
      · rw [if_pos he]; exact h
      · rw [if_neg he]
        simpa [List.nodup_append] using ⟨h, he⟩
    · rw [if_neg hm]; exact h

theorem collectOptions_mem {x : Entry} :
    ∀ (ds : List Entry) (ets : List String) (acc : List Entry),
      x ∈ ds.foldl (fun opts e =>
          ets.foldl (fun o et =>
            if etMatchesEntry et e then (if e ∈ o then o else o ++ [e]) else o) opts) acc →
      x ∈ acc ∨ (x ∈ ds ∧ ∃ et ∈ ets, etMatchesEntry et x = true) := by
  intro ds
  induction ds with
  | nil => intro ets acc h; exact Or.inl h
  | cons e rest ih =>
    intro ets acc h
    simp only [List.foldl_cons] at h
    rcases ih _ _ h with h2 | ⟨hds, hex⟩
    · rcases inner_fold_mem ets acc h2 with h3 | ⟨rfl, het⟩
      · exact Or.inl h3
      · exact Or.inr ⟨List.mem_cons_self _ _, het⟩
    · exact Or.inr ⟨List.mem_cons_of_mem _ hds, hex⟩

theorem collectOptions_nodup :
    ∀ (ds : List Entry) (ets : List String) (acc : List Entry), acc.Nodup →
      (ds.foldl (fun opts e =>
          ets.foldl (fun o et =>
            if etMatchesEntry et e then (if e ∈ o then o else o ++ [e]) else o) opts) acc).Nodup := by
  intro ds
  induction ds with
  | nil => intro ets acc h; exact h
  | cons e rest ih =>
    intro ets acc h
    simp only [List.foldl_cons]
    exact ih _ _ (inner_fold_nodup ets acc h)

theorem oxygen_breathing_matches_none :
    ∀ x ∈ default_dataset, etMatchesEntry "oxygen/breathing" x = false := by decide

theorem life_support_filter_length :
    (default_dataset.filter (fun e => etMatchesEntry "life support" e)).length = 1 := by
  decide

theorem extract_safe (bot : Bot) (msg : String)
    (hix : bot.keyword_index = build_keyword_index default_dataset)
    (htop : ¬ ∃ p rest, fuzzy_keyword_match bot msg = p :: rest ∧ 5 ≤ p.2) :
    ∀ c ∈ extract_emergency_type msg, c = "oxygen/breathing" ∨ c = "life support" := by
  intro c hc
  unfold extract_emergency_type at hc
  rcases List.mem_map.1 hc with ⟨p, hpf, hp1⟩
  obtain ⟨c', kws⟩ := p
  simp only at hp1
  subst hp1
  have hfm := List.mem_filter.1 hpf
  obtain ⟨htab, hpred⟩ := hfm
  simp only [emergency_categories, List.mem_cons, List.not_mem_nil, or_false,
    Prod.mk.injEq] at htab
  rcases htab with h | h | h | h | h | h | h | h | h
  all_goals obtain ⟨rfl, rfl⟩ := h
  · exact Or.inl rfl
  · exfalso
    rw [List.any_eq_true] at hpred
    obtain ⟨kw, hkwmem, hkw⟩ := hpred
    fin_cases hkwmem <;>
      exact absurd (top_of_kw bot msg _ (by rw [hix]; decide) (by decide) (by decide)
        (by decide) hkw) htop
  · exfalso
    rw [List.any_eq_true] at hpred
    obtain ⟨kw, hkwmem, hkw⟩ := hpred
    fin_cases hkwmem <;>
      exact absurd (top_of_kw bot msg _ (by rw [hix]; decide) (by decide) (by decide)
        (by decide) hkw) htop
  · exfalso
    rw [List.any_eq_true] at hpred
    obtain ⟨kw, hkwmem, hkw⟩ := hpred
    fin_cases hkwmem <;>
      exact absurd (top_of_kw bot msg _ (by rw [hix]; decide) (by decide) (by decide)
        (by decide) hkw) htop
  · exfalso
    rw [List.any_eq_true] at hpred
    obtain ⟨kw, hkwmem, hkw⟩ := hpred
    fin_cases hkwmem <;>
      exact absurd (top_of_kw bot msg _ (by rw [hix]; decide) (by decide) (by decide)
        (by decide) hkw) htop
  · exfalso
    rw [List.any_eq_true] at hpred
    obtain ⟨kw, hkwmem, hkw⟩ := hpred
    fin_cases hkwmem <;>
      exact absurd (top_of_kw bot msg _ (by rw [hix]; decide) (by decide) (by decide)
        (by decide) hkw) htop
  · exfalso
    rw [List.any_eq_true] at hpred
    obtain ⟨kw, hkwmem, hkw⟩ := hpred
    fin_cases hkwmem <;>
      exact absurd (top_of_kw bot msg _ (by rw [hix]; decide) (by decide) (by decide)
        (by decide) hkw) htop
  · exfalso
    rw [List.any_eq_true] at hpred
    obtain ⟨kw, hkwmem, hkw⟩ := hpred
    fin_cases hkwmem <;>
      exact absurd (top_of_kw bot msg _ (by rw [hix]; decide) (by decide) (by decide)
        (by decide) hkw) htop
  · exact Or.inr rfl

theorem collectOptions_safe_le_one (bot : Bot) (msg : String)
    (hds : bot.dataset = default_dataset)
    (hsafe : ∀ c ∈ extract_emergency_type msg,
      c = "oxygen/breathing" ∨ c = "life support") :
    (collectOptions bot.dataset (extract_emergency_type msg)).length ≤ 1 := by
  have hmem : ∀ x ∈ collectOptions bot.dataset (extract_emergency_type msg),
      x ∈ default_dataset.filter (fun e => etMatchesEntry "life support" e) := by
    intro x hx
    unfold collectOptions at hx
    rcases collectOptions_mem bot.dataset (extract_emergency_type msg) [] hx with
      h | ⟨hxds, et, hetm, hmatch⟩
    · simp at h
    · rw [hds] at hxds
      rcases hsafe et hetm with rfl | rfl
      · exact absurd hmatch (by simp [oxygen_breathing_matches_none x hxds])
      · exact List.mem_filter.2 ⟨hxds, hmatch⟩
  have hnd : (collectOptions bot.dataset (extract_emergency_type msg)).Nodup := by
    unfold collectOptions
    exact collectOptions_nodup bot.dataset (extract_emergency_type msg) [] (by simp)
  have := (hnd.subperm hmem).length_le
  rw [life_support_filter_length] at this
  exact this


theorem finishTurn_fields {b b' : Bot} {n : Nat} {R r : String}
    (h : finishTurn b n R = some (r, b')) :
    b'.clarification_options = b.clarification_options ∧ b'.dataset = b.dataset ∧
    b'.keyword_index = b.keyword_index := by
  unfold finishTurn at h
  have h2 := Option.some.inj h
  have h3 : ({ b with conversation_history := b.conversation_history ++
      [{ role := "assistant", message := R, timestamp := n }] } : Bot) = b' :=
    congrArg Prod.snd h2
  rw [← h3]
  exact ⟨rfl, rfl, rfl⟩

theorem optionEntries_length {ds : List Entry} :
    ∀ {ms : List (Nat × Nat)} {os : List Entry}, optionEntries ds ms = some os →
      os.length = ms.length := by
  intro ms
  induction ms with
  | nil => intro os h; simp only [optionEntries] at h; rw [← Option.some.inj h]; rfl
  | cons m rest ih =>
    intro os h
    simp only [optionEntries] at h
    cases hget : ds.get? m.1 with
    | none => rw [hget] at h; simp at h
    | some e =>
      rw [hget] at h
      cases hrec : optionEntries ds rest with
      | none => rw [hrec] at h; simp at h
      | some os2 =>
        rw [hrec] at h
        simp only at h
        rw [← Option.some.inj h]
        simp [ih hrec]

theorem context_preserves {b b' : Bot} {now : Nat} {r : String}
    (hstep : context_or_fallback b now = some (r, b')) :
    b'.clarification_options = b.clarification_options ∧ b'.dataset = b.dataset ∧
    b'.keyword_index = b.keyword_index := by
  unfold context_or_fallback at hstep
  cases htop : b.last_topic with
  | none =>
    rw [htop] at hstep
    exact finishTurn_fields hstep
  | some topic =>
    rw [htop] at hstep
    simp only at hstep
    by_cases ht : topic ≠ "" ∧ 2 < b.conversation_history.length
    · rw [if_pos ht] at hstep
      exact finishTurn_fields hstep
    · rw [if_neg ht] at hstep
      exact finishTurn_fields hstep

theorem unclear_preserves {b b' : Bot} {now : Nat} {msg r : String}
    (hds : b.dataset = default_dataset)
    (hix : b.keyword_index = build_keyword_index default_dataset)
    (htop : ¬ ∃ p rest, fuzzy_keyword_match b msg = p :: rest ∧ 5 ≤ p.2)
    (hstep : emergency_unclear b now msg = some (r, b')) :
    b'.clarification_options = b.clarification_options ∧ b'.dataset = b.dataset ∧
    b'.keyword_index = b.keyword_index := by
  unfold emergency_unclear at hstep
  by_cases he : (extract_emergency_type msg).isEmpty
  · rw [if_pos he] at hstep
    exact finishTurn_fields hstep
  · rw [if_neg he] at hstep
    cases hco : collectOptions b.dataset (extract_emergency_type msg) with
    | nil =>
      rw [hco] at hstep
      exact finishTurn_fields hstep
    | cons o1 os =>
      cases os with
      | nil =>
        rw [hco] at hstep
        simp only at hstep
        obtain ⟨h1, h2, h3⟩ := finishTurn_fields hstep
        exact ⟨h1, h2, h3⟩
      | cons o2 rest =>
        exfalso
        have hsafe := extract_safe b msg hix htop
        have hlen := collectOptions_safe_le_one b msg hds hsafe
        rw [hco] at hlen
        simp at hlen

theorem layers_preserves {b b' : Bot} {now : Nat} {msg r : String}
    (hstep : layers_4_7 b now msg = some (r, b'))
    (hds : b.dataset = default_dataset)
    (hix : b.keyword_index = build_keyword_index default_dataset)
    (hopts : b.clarification_options.length ≤ 5) :
    b'.clarification_options.length ≤ 5 ∧ b'.dataset = default_dataset ∧
    b'.keyword_index = build_keyword_index default_dataset := by
  unfold layers_4_7 at hstep
  by_cases hd : detect_emergency_intent msg
  · rw [if_pos hd] at hstep
    cases hm : fuzzy_keyword_match b msg with
    | nil =>
      rw [hm] at hstep
      have htop : ¬ ∃ p rest, fuzzy_keyword_match b msg = p :: rest ∧ 5 ≤ p.2 := by
        rintro ⟨p, rest, hcons, -⟩
        rw [hm] at hcons
        exact List.cons_ne_nil _ _ hcons.symm
      obtain ⟨h1, h2, h3⟩ := unclear_preserves hds hix htop hstep
      exact ⟨h1 ▸ hopts, h2 ▸ hds, h3 ▸ hix⟩
    | cons p rest =>
      rw [hm] at hstep
      obtain ⟨idx, score⟩ := p
      simp only at hstep
      by_cases hs : 5 ≤ score
      · rw [if_pos hs] at hstep
        cases hget : b.dataset.get? idx with
        | none => rw [hget] at hstep; simp at hstep
        | some best =>
          rw [hget] at hstep
          obtain ⟨h1, h2, h3⟩ := finishTurn_fields hstep
          simp only at h1 h2 h3
          exact ⟨h1 ▸ hopts, h2 ▸ hds, h3 ▸ hix⟩
      · rw [if_neg hs] at hstep
        have htop : ¬ ∃ p2 rest2, fuzzy_keyword_match b msg = p2 :: rest2 ∧ 5 ≤ p2.2 := by
          rintro ⟨p2, rest2, hcons, h5⟩
          rw [hm] at hcons
          injection hcons with hh1 hh2
          rw [← hh1] at h5
          simp only at h5
          exact hs h5
        obtain ⟨h1, h2, h3⟩ := unclear_preserves hds hix htop hstep
        exact ⟨h1 ▸ hopts, h2 ▸ hds, h3 ▸ hix⟩
  · rw [if_neg hd] at hstep
    cases hm : fuzzy_keyword_match b msg with
    | nil =>
      rw [hm] at hstep
      obtain ⟨h1, h2, h3⟩ := context_preserves hstep
      exact ⟨h1 ▸ hopts, h2 ▸ hds, h3 ▸ hix⟩
    | cons p rest =>
      rw [hm] at hstep
      obtain ⟨idx, score⟩ := p
      simp only at hstep
      by_cases hs : 3 ≤ score
      · rw [if_pos hs] at hstep
        by_cases hg : 1 < (((idx, score) :: rest).filter (fun m => 8 ≤ m.2)).length
        · rw [if_pos hg] at hstep
          cases hoe : optionEntries b.dataset
              ((((idx, score) :: rest).filter (fun m => 8 ≤ m.2)).take 5) with
          | none => rw [hoe] at hstep; simp at hstep
          | some opts =>
            rw [hoe] at hstep
            obtain ⟨h1, h2, h3⟩ := finishTurn_fields hstep
            simp only at h1 h2 h3
            refine ⟨?_, h2 ▸ hds, h3 ▸ hix⟩
            rw [h1]
            have := optionEntries_length hoe
            rw [this]
            exact List.length_take_le _ _
        · rw [if_neg hg] at hstep
          cases hget : b.dataset.get? idx with
          | none => rw [hget] at hstep; simp at hstep
          | some best =>
            rw [hget] at hstep
            obtain ⟨h1, h2, h3⟩ := finishTurn_fields hstep
            simp only at h1 h2 h3
            exact ⟨h1 ▸ hopts, h2 ▸ hds, h3 ▸ hix⟩
      · rw [if_neg hs] at hstep
        obtain ⟨h1, h2, h3⟩ := context_preserves hstep
        exact ⟨h1 ▸ hopts, h2 ▸ hds, h3 ▸ hix⟩


theorem step_preserves {b b' : Bot} {now : Nat} {msg r : String}
    (hds : b.dataset = default_dataset)
    (hix : b.keyword_index = build_keyword_index default_dataset)
    (hopts : b.clarification_options.length ≤ 5)
    (hstep : generate_response b now msg = some (r, b')) :
    b'.dataset = default_dataset ∧ b'.keyword_index = build_keyword_index default_dataset ∧
    b'.clarification_options.length ≤ 5 := by
  unfold generate_response at hstep
  simp only at hstep
  cases hclar : clarification_answer b.awaiting_clarification b.clarification_options msg
      (pyLower msg) with
  | some o =>
    rw [hclar] at hstep
    simp only at hstep
    obtain ⟨h1, h2, h3⟩ := finishTurn_fields hstep
    refine ⟨h2.trans hds, h3.trans hix, ?_⟩
    rw [h1]
    simp
  | none =>
    rw [hclar] at hstep
    simp only at hstep
    by_cases hb : basic_intent_matched msg (pyLower msg)
    · rw [if_pos hb] at hstep
      obtain ⟨h1, h2, h3⟩ := layers_preserves hstep hds hix hopts
      exact ⟨h2, h3, h1⟩
    · rw [if_neg hb] at hstep
      by_cases hu : b.user_name.isNone
      · rw [if_pos hu] at hstep
        cases hname : extract_name (pyLower msg) with
        | some nm =>
          rw [hname] at hstep
          simp only at hstep
          obtain ⟨h1, h2, h3⟩ := finishTurn_fields hstep
          exact ⟨h2.trans hds, h3.trans hix, h1 ▸ hopts⟩
        | none =>
          rw [hname] at hstep
          simp only at hstep
          obtain ⟨h1, h2, h3⟩ := layers_preserves hstep hds hix hopts
          exact ⟨h2, h3, h1⟩
      · rw [if_neg hu] at hstep
        obtain ⟨h1, h2, h3⟩ := layers_preserves hstep hds hix hopts
        exact ⟨h2, h3, h1⟩

theorem reachable_invariant (b : Bot) (h : Reachable b) :
    b.dataset = default_dataset ∧ b.keyword_index = build_keyword_index default_dataset ∧
    b.clarification_options.length ≤ 5 := by
  induction h with
  | init => exact ⟨rfl, rfl, by simp [fresh_bot]⟩
  | step hb hgen ih =>
    obtain ⟨h1, h2, h3⟩ := ih
    exact step_preserves h1 h2 h3 hgen

/-! ### Claim C1 -/

/-- **C1** (layer short-circuiting), evaluated at the failing input: in a
fresh session the message `"hi"` does match the greeting vocabulary with
`userName` unset, but `generate_response` returns the layer-7 fallback menu,
not the introduction-and-call-sign request (`greeting_response_new`).  The
source's greeting branch assigns `response` without returning, and layers
4-7 unconditionally reassign it, so the greeting text is a dead store: the
first layer that produces a response does NOT determine the returned text. -/
theorem claim_C1_greeting_overwritten (now : Nat) :
    reSearchVocab greeting_words (pyLower "hi") = true ∧
    fresh_bot.user_name = none ∧
    (generate_response fresh_bot now "hi").map Prod.fst = some fallback_menu ∧
    fallback_menu ≠ greeting_response_new :=
  ⟨by with_unfolding_all rfl, rfl, by with_unfolding_all rfl, by decide⟩

/-! ### Claim C2 -/

/-- **C2** (emergency escalation): for `"HELP!! we are losing air!!"` in a
fresh session, the emergency-intent detector triggers, the fuzzy scorer's
top-ranked result is the oxygen entry (index 0) with score 10 ≥ 5 (the token
`air` matches its keyword exactly), and the response is the
`EMERGENCY DETECTED - LIFE_SUPPORT` header followed by the oxygen entry's
response text, with `last_topic` set to that entry's category. -/
theorem claim_C2_emergency_escalation (now : Nat) :
    detect_emergency_intent "HELP!! we are losing air!!" = true ∧
    (fuzzy_keyword_match fresh_bot "HELP!! we are losing air!!").head? = some (0, 10) ∧
    ∃ e0, default_dataset.get? 0 = some e0 ∧
      generate_response fresh_bot now "HELP!! we are losing air!!" =
        some ("⚠️ EMERGENCY DETECTED - LIFE_SUPPORT\n\n" ++ e0.response,
          { fresh_bot with
              last_topic := some e0.category,
              conversation_history :=
                [{ role := "user", message := "HELP!! we are losing air!!", timestamp := now },
                 { role := "assistant",
                   message := "⚠️ EMERGENCY DETECTED - LIFE_SUPPORT\n\n" ++ e0.response,
                   timestamp := now }] }) :=
  ⟨by with_unfolding_all rfl, by with_unfolding_all rfl, _,
    by with_unfolding_all rfl, by with_unfolding_all rfl⟩

/-! ### Claim C3 -/

/-- **C3** (clarification round-trip): with a pending clarification over two
options of categories `fire` and `oxygen` (all other entry fields and session
fields arbitrary), the reply `"2"` returns the second option's response
verbatim, clears the flag and the option list and sets `last_topic` to
`oxygen`; the reply `"fire"` does the same with the first option and
`last_topic` `fire`. -/
theorem claim_C3_clarification_round_trip (now : Nat) (kw1 q1 kw2 q2 : List String)
    (r1 sv1 r2 sv2 : String) (un lt : Option String) (hist : List HistEntry) :
    (generate_response (mk_session un lt true
        [⟨kw1, r1, sv1, "fire", q1⟩, ⟨kw2, r2, sv2, "oxygen", q2⟩] hist) now "2").map
      (fun p => (p.1, p.2.awaiting_clarification, p.2.clarification_options, p.2.last_topic)) =
      some (r2, false, [], some "oxygen") ∧
    (generate_response (mk_session un lt true
        [⟨kw1, r1, sv1, "fire", q1⟩, ⟨kw2, r2, sv2, "oxygen", q2⟩] hist) now "fire").map
      (fun p => (p.1, p.2.awaiting_clarification, p.2.clarification_options, p.2.last_topic)) =
      some (r1, false, [], some "fire") :=
  ⟨by with_unfolding_all rfl, by with_unfolding_all rfl⟩

/-! ### Claim C10 -/

/-- **C10** (clarification numeric matching is substring containment): while
a clarification is pending, any reply whose raw text contains the character
`1` anywhere — e.g. `"10"` or `"1 minute"` — selects the FIRST stored
option, whatever the rest of the option list is: the scan tests
`str(i+1) in message` in order, so option 1 wins as soon as `"1"` occurs. -/
theorem claim_C10_numeric_substring_selection (now : Nat) (un lt : Option String)
    (hist : List HistEntry) (o : Entry) (os : List Entry) (msg : String)
    (h1 : pyIn "1" msg = true) :
    (generate_response (mk_session un lt true (o :: os) hist) now msg).map
      (fun p => (p.1, p.2.awaiting_clarification, p.2.clarification_options, p.2.last_topic)) =
      some (o.response, false, [], some o.category) := by
  have hclar : clarification_answer true (o :: os) msg (pyLower msg) = some o := by
    unfold clarification_answer
    rw [if_pos (by simp)]
    rw [show (o :: os).enum = (0, o) :: List.enumFrom 1 os from rfl,
      List.find?_cons_of_pos _ (by
        show (pyIn (toString (0 + 1)) msg || pyIn (pyLower o.category) (pyLower msg)) = true
        rw [show toString (0 + 1) = "1" from rfl, h1, Bool.true_or])]
    rfl
  unfold generate_response
  simp only [mk_session] at *
  rw [hclar]
  rfl

/-- Witness for C10 at the reply `"10"`: even though the user plausibly means
option 10 (or option 2 of two), the FIRST option (category `fire`) is
selected, because `"1"` occurs in `"10"`. -/
theorem claim_C10_numeric_substring_selection_witness :
    pyIn "1" "10" = true ∧
    (generate_response (mk_session none none true
        [⟨["f"], "FIRE-RESPONSE", "HIGH", "fire", []⟩,
         ⟨["o"], "OXY-RESPONSE", "HIGH", "oxygen", []⟩] []) 0 "10").map
      (fun p => (p.1, p.2.awaiting_clarification, p.2.clarification_options, p.2.last_topic)) =
      some ("FIRE-RESPONSE", false, [], some "fire") :=
  ⟨by with_unfolding_all rfl,
    claim_C10_numeric_substring_selection 0 none none []
      ⟨["f"], "FIRE-RESPONSE", "HIGH", "fire", []⟩
      [⟨["o"], "OXY-RESPONSE", "HIGH", "oxygen", []⟩] "10" (by with_unfolding_all rfl)⟩

/-! ### Claim C4 -/

/-- **C4** (cumulative scoring with double-counting): a token `t` that
exactly equals an indexed keyword of length ≥ 4 fires both the exact-match
rule (+10 per listed entry, the first conjunct of `creditEventsWord`'s
decomposition) and the substring-containment rule (+5 per listed entry, since
`t` trivially contains itself), so every entry `e` listed under that keyword
gains at least `15 * count` from this (token, keyword) pair; and the
counter's final value for `e` is the sum of the per-token event sums over the
whole message. -/
theorem claim_C4_double_counting (msg t : String) (l : List Nat) (e : Nat)
    (_htok : t ∈ tokenize (pyLower msg))
    (hlook : listLookup (build_keyword_index default_dataset) t = some l)
    (hlen : 4 ≤ t.length) (_he : e ∈ l) :
    pairEvents t (t, l) = l.map (fun i => (i, 5)) ∧
    creditEventsWord (build_keyword_index default_dataset) t =
      l.map (fun i => (i, 10)) ++ (build_keyword_index default_dataset).flatMap (pairEvents t) ∧
    15 * l.count e ≤ eventScore (creditEventsWord (build_keyword_index default_dataset) t) e ∧
    counterGet (applyEvents [] (creditEvents (build_keyword_index default_dataset) msg)) e =
      ((tokenize (pyLower msg)).map
        (fun w => eventScore (creditEventsWord (build_keyword_index default_dataset) w) e)).sum := by
  have hpair : pairEvents t (t, l) = l.map (fun i => (i, 5)) := by
    simp [pairEvents, hlen, pyIn, List.infix_refl]
  have hword : creditEventsWord (build_keyword_index default_dataset) t =
      l.map (fun i => (i, 10)) ++ (build_keyword_index default_dataset).flatMap (pairEvents t) := by
    simp [creditEventsWord, exactEvents, hlook]
  refine ⟨hpair, hword, ?_, ?_⟩
  · rw [hword, eventScore_append, eventScore_map_const]
    have hmem : (t, l) ∈ build_keyword_index default_dataset := by
      unfold listLookup at hlook
      obtain ⟨kl, hfind, hsnd⟩ : ∃ kl, (build_keyword_index default_dataset).find?
          (fun p => p.1 == t) = some kl ∧ kl.2 = l := by
        cases hf : (build_keyword_index default_dataset).find? (fun p => p.1 == t) with
        | none => rw [hf] at hlook; simp at hlook
        | some kl => rw [hf] at hlook; simp at hlook; exact ⟨kl, rfl, hlook⟩
      have hkey : kl.1 = t := by
        have := List.find?_some hfind
        simpa using this
      have : kl = (t, l) := by
        obtain ⟨k1, k2⟩ := kl
        simp only at hkey hsnd
        rw [hkey, hsnd]
      rw [← this]
      exact List.mem_of_find?_eq_some hfind
    have hin : eventScore (pairEvents t (t, l)) e ∈
        ((build_keyword_index default_dataset).map (fun kl => eventScore (pairEvents t kl) e)) :=
      List.mem_map_of_mem _ hmem
    have hle := List.single_le_sum (l := ((build_keyword_index default_dataset).map
        (fun kl => eventScore (pairEvents t kl) e))) (fun x _ => Nat.zero_le x) _ hin
    rw [hpair, eventScore_map_const] at hle
    rw [eventScore_flatMap]
    omega
  · rw [counterGet_applyEvents]
    simp [counterGet, creditEvents, eventScore_flatMap]

/-- Witness for C4 at the one-token message `"fire"`: the keyword `fire`
(length 4) is indexed for entry 1, and the single token credits entry 1 with
15 points (10 exact + 5 containment). -/
theorem claim_C4_double_counting_witness :
    "fire" ∈ tokenize (pyLower "fire") ∧
    listLookup (build_keyword_index default_dataset) "fire" = some [1] ∧
    (4 : Nat) ≤ "fire".length ∧ 1 ∈ [1] ∧
    15 * [1].count 1 ≤ eventScore (creditEventsWord (build_keyword_index default_dataset) "fire") 1 := by
  have h1 : "fire" ∈ tokenize (pyLower "fire") := by decide
  have h2 : listLookup (build_keyword_index default_dataset) "fire" = some [1] := by
    with_unfolding_all rfl
  exact ⟨h1, h2, by decide, by decide,
    (claim_C4_double_counting "fire" "fire" [1] 1 h1 h2 (by decide) (by decide)).2.2.1⟩

/-! ### Claim C5 -/

/-- **C5** (tie stability): the fuzzy scorer's output is sorted by descending
score, and any two results with equal scores appear in the order in which the
entries were first credited a nonzero score during the left-to-right scan
over tokens and matching rules (`first_credit_order`). -/
theorem claim_C5_tie_stability (bot : Bot) (msg : String) :
    (fuzzy_keyword_match bot msg).Pairwise (fun a b => b.2 ≤ a.2) ∧
    ∀ p q : Nat × Nat, List.Sublist [p, q] (fuzzy_keyword_match bot msg) → p.2 = q.2 →
      List.Sublist [p.1, q.1] (first_credit_order bot.keyword_index msg) := by
  constructor
  · exact sortDesc_pairwise _
  · intro p q hsub heq
    have hfilter : [p, q].filter (fun r => r.2 == p.2) = [p, q] := by
      simp [List.filter_cons, heq]
    have h2 := List.Sublist.filter (fun r : Nat × Nat => r.2 == p.2) hsub
    rw [hfilter] at h2
    rw [fuzzy_keyword_match, filter_sortDesc] at h2
    have h3 := h2.map (fun r : Nat × Nat => r.1)
    simp only [List.map_cons, List.map_nil] at h3
    have h4 : List.Sublist
        ((applyEvents [] (creditEvents bot.keyword_index msg)).filter (fun r => r.2 == p.2))
        (applyEvents [] (creditEvents bot.keyword_index msg)) := List.filter_sublist _
    have h5 := h4.map (fun r : Nat × Nat => r.1)
    have h6 := h3.trans h5
    rw [show (fun r : Nat × Nat => r.1) = (fun r : Nat × Nat => r.1) from rfl] at h6
    have h7 : (applyEvents [] (creditEvents bot.keyword_index msg)).map (·.1) =
        keysAfter [] (creditEvents bot.keyword_index msg) := by
      simpa using applyEvents_keys (creditEvents bot.keyword_index msg) []
    rw [h7] at h6
    simpa [first_credit_order] using h6

/-- Witness for C5 on `"fire oxygen"`: entries 1 and 0 tie at score 15 and
are listed in first-credit order (entry 1 was credited first, by the token
`fire`). -/
theorem claim_C5_tie_stability_witness :
    List.Sublist [((1 : Nat), (15 : Nat)), ((0 : Nat), (15 : Nat))]
      (fuzzy_keyword_match fresh_bot "fire oxygen") ∧
    List.Sublist [1, 0] (first_credit_order fresh_bot.keyword_index "fire oxygen") := by
  have hsub : List.Sublist [((1 : Nat), (15 : Nat)), ((0 : Nat), (15 : Nat))]
      (fuzzy_keyword_match fresh_bot "fire oxygen") := by
    rw [show fuzzy_keyword_match fresh_bot "fire oxygen" = [(1, 15), (0, 15)] from
      by with_unfolding_all rfl]
  exact ⟨hsub,
    (claim_C5_tie_stability fresh_bot "fire oxygen").2 (1, 15) (0, 15) hsub rfl⟩

/-! ### Claim C9 -/

/-- **C9** (determinism): the response text is a function of the catalog,
message and incoming state only.  The embedded `generate_response` is a pure
function, so two calls with identical arguments are trivially equal; the
meaningful content, proved here, is that the clock argument (the only
impurity of the source, `datetime.now()`) never influences the response text,
and that the updated states of two calls with different clocks agree once
history timestamps are erased — timestamps are the only difference.  (The
only response that interpolates the clock is the status text, which is a dead
store, see `basic_intent_matched`.) -/
theorem claim_C9_determinism (bot : Bot) (msg : String) (n1 n2 : Nat) :
    (generate_response bot n1 msg).map Prod.fst =
      (generate_response bot n2 msg).map Prod.fst ∧
    (generate_response bot n1 msg).map (fun p => eraseTimestamps p.2) =
      (generate_response bot n2 msg).map (fun p => eraseTimestamps p.2) := by
  have main : (generate_response bot n1 msg).map (fun p => (p.1, eraseTimestamps p.2)) =
      (generate_response bot n2 msg).map (fun p => (p.1, eraseTimestamps p.2)) := by
    unfold generate_response
    have hbots : eraseTimestamps
        { bot with conversation_history := bot.conversation_history ++
            [{ role := "user", message := msg, timestamp := n1 }] } =
      eraseTimestamps
        { bot with conversation_history := bot.conversation_history ++
            [{ role := "user", message := msg, timestamp := n2 }] } := by
      simp [eraseTimestamps, List.map_append]
    simp only
    cases clarification_answer bot.awaiting_clarification bot.clarification_options msg
        (pyLower msg) with
    | some option =>
      refine finishTurn_time ?_ n1 n2 _
      simp [eraseTimestamps, List.map_append]
    | none =>
      by_cases hb : basic_intent_matched msg (pyLower msg)
      · rw [if_pos hb, if_pos hb]
        exact layers_4_7_time hbots n1 n2 msg
      · rw [if_neg hb, if_neg hb]
        by_cases hu : bot.user_name.isNone
        · rw [if_pos hu, if_pos hu]
          cases extract_name (pyLower msg) with
          | some nm =>
            refine finishTurn_time ?_ n1 n2 _
            simp [eraseTimestamps, List.map_append]
          | none => exact layers_4_7_time hbots n1 n2 msg
        · rw [if_neg hu, if_neg hu]
          exact layers_4_7_time hbots n1 n2 msg
  constructor
  · have := congrArg (Option.map Prod.fst) main
    simpa [Option.map_map, Function.comp] using this
  · have := congrArg (Option.map Prod.snd) main
    simpa [Option.map_map, Function.comp] using this

/-! ### Claim C8 -/

/-- **C8** (totality of the response entrypoint): for every message string
(empty, unicode-only or punctuation-only included) and every session state
over the default catalog, `generate_response` returns `some` response — it
never reaches a fallible operation on a bad argument.  The only partial
operations of the core are the `self.dataset[idx]` lookups, modelled with
`List.get?`; every index the scorer can emit comes from the keyword index,
whose entries all point inside the default catalog (`default_index_valid`),
so the `none` (exception) paths are unreachable. -/
theorem claim_C8_totality (msg : String) (now : Nat) (un lt : Option String) (aw : Bool)
    (opts : List Entry) (hist : List HistEntry) :
    (generate_response (mk_session un lt aw opts hist) now msg).isSome := by
  unfold generate_response
  simp only [mk_session]
  cases clarification_answer aw opts msg (pyLower msg) with
  | some o => exact finishTurn_isSome _ _ _
  | none =>
    by_cases hb : basic_intent_matched msg (pyLower msg)
    · rw [if_pos hb]
      exact layers_4_7_isSome _ default_index_valid _ _
    · rw [if_neg hb]
      by_cases hu : un.isNone
      · rw [if_pos hu]
        cases extract_name (pyLower msg) with
        | some nm => exact finishTurn_isSome _ _ _
        | none => exact layers_4_7_isSome _ default_index_valid _ _
      · rw [if_neg hu]
        exact layers_4_7_isSome _ default_index_valid _ _

/-! ### Claim C6 -/

/-- **C6** (disambiguation threshold): for any message that reaches the
non-emergency query layer (no clarification match, no early name-capture
return, emergency detector silent) on which two or more entries score ≥ 8,
the response is the numbered clarification list of the top (at most five)
good matches, `awaiting_clarification` is set, those entries are stored in
`clarification_options`, and the response is not any entry's response text. -/
theorem claim_C6_disambiguation_threshold (msg : String) (now : Nat) (un lt : Option String)
    (aw : Bool) (opts : List Entry) (hist : List HistEntry)
    (hclar : clarification_answer aw opts msg (pyLower msg) = none)
    (hreach : basic_intent_matched msg (pyLower msg) = true ∨ un ≠ none ∨
      extract_name (pyLower msg) = none)
    (hemerg : detect_emergency_intent msg = false)
    (hgood : 1 < ((fuzzy_keyword_match (mk_session un lt aw opts hist) msg).filter
        (fun m => 8 ≤ m.2)).length) :
    ∃ os b', optionEntries default_dataset
        (((fuzzy_keyword_match (mk_session un lt aw opts hist) msg).filter
          (fun m => 8 ≤ m.2)).take 5) = some os ∧
      generate_response (mk_session un lt aw opts hist) now msg =
        some (multi_topic_response os, b') ∧
      b'.awaiting_clarification = true ∧ b'.clarification_options = os ∧
      os.length ≤ 5 ∧ multi_topic_response os ∉ default_dataset.map (·.response) := by
  obtain ⟨os, b', hos, hrun, hb1, hb2, hb3⟩ :=
    layers_4_7_multi
      { user_name := un, last_topic := lt, awaiting_clarification := aw,
        clarification_options := opts,
        conversation_history := hist ++ [{ role := "user", message := msg, timestamp := now }],
        dataset := default_dataset, keyword_index := build_keyword_index default_dataset }
      now msg default_index_valid hemerg hgood
  have hnotin : multi_topic_response os ∉ default_dataset.map (·.response) := by
    intro hmem
    exact dataset_heads _ hmem (multi_topic_head os)
  refine ⟨os, b', hos, ?_, hb1, hb2, hb3, hnotin⟩
  unfold generate_response
  simp only [mk_session]
  rw [hclar]
  rcases hreach with hb | hun | hext
  · rw [if_pos hb]
    exact hrun
  · by_cases hb : basic_intent_matched msg (pyLower msg)
    · rw [if_pos hb]
      exact hrun
    · rw [if_neg hb]
      have hu : un.isNone = false := by
        cases un with
        | none => exact absurd rfl hun
        | some u => rfl
      rw [if_neg (by simp [hu])]
      exact hrun
  · by_cases hb : basic_intent_matched msg (pyLower msg)
    · rw [if_pos hb]
      exact hrun
    · rw [if_neg hb]
      by_cases hu : un.isNone
      · rw [if_pos hu, hext]
        exact hrun
      · rw [if_neg hu]
        exact hrun

/-- Witness for C6 on `"fire oxygen"` with a named user: both the fire and the
oxygen entries score 15 ≥ 8, so the reply is the two-topic clarification
list, never a direct answer. -/
theorem claim_C6_disambiguation_threshold_witness :
    detect_emergency_intent "fire oxygen" = false ∧
    1 < ((fuzzy_keyword_match (mk_session (some "Bob") none false [] []) "fire oxygen").filter
        (fun m => 8 ≤ m.2)).length ∧
    ∃ os b', optionEntries default_dataset
        (((fuzzy_keyword_match (mk_session (some "Bob") none false [] []) "fire oxygen").filter
          (fun m => 8 ≤ m.2)).take 5) = some os ∧
      generate_response (mk_session (some "Bob") none false [] []) 0 "fire oxygen" =
        some (multi_topic_response os, b') ∧
      b'.awaiting_clarification = true ∧ b'.clarification_options = os ∧
      os.length ≤ 5 ∧ multi_topic_response os ∉ default_dataset.map (·.response) := by
  refine ⟨by with_unfolding_all rfl, by decide, ?_⟩
  exact claim_C6_disambiguation_threshold "fire oxygen" 0 (some "Bob") none false [] []
    (by with_unfolding_all rfl) (Or.inr (Or.inl (by simp))) (by with_unfolding_all rfl)
    (by decide)

/-! ### Claim C7 -/

/-- **C7** (bounded clarification options): every session state reachable
from a fresh chatbot over the default catalog keeps at most 5 stored
clarification options.  The non-emergency path stores at most the first five
good matches; the emergency path stores the FULL candidate list, but over the
default catalog that list can never exceed one entry when it is reached: any
message containing a keyword of the other coarse categories (fire, hull
breach, radiation, power, communication, medical, navigation) necessarily
drives the fuzzy top score to ≥ 5, which diverts the flow to the direct
emergency answer before the candidate collection runs (`extract_safe`). -/
theorem claim_C7_bounded_options (b : Bot) (h : Reachable b) :
    b.clarification_options.length ≤ 5 :=
  (reachable_invariant b h).2.2

/-- Witness for C7 at the initial reachable state. -/
theorem claim_C7_bounded_options_witness :
    Reachable fresh_bot ∧ fresh_bot.clarification_options.length ≤ 5 :=
  ⟨Reachable.init, claim_C7_bounded_options fresh_bot Reachable.init⟩


end Chatbot
